import Mathlib

/-!
Verification of the fallback-orchestration engine of `paperscraper/scraper.py`.

The embedding is shallow: the `Scraper` class becomes a structure holding its
registered strategies, `register_scraper` and the priority/rotation plan are
pure functions, and the per-record orchestration `Scraper.scrape` is a state
machine over an explicit `SState`.  External collaborators (the fetch
capabilities, the PDF validator `check_pdf`, and the reporter callback
`self.callback`) are opaque to the orchestrator, so they enter as oracle
parameters:
  * `fetch s`   — the value of `await scraper.function(paper, path, **kwargs)`:
                  `Except.error ()` when the call raises, `Except.ok b` when it
                  returns the boolean `b`;
  * `pdfCheck s` — the value of `check_pdf(path, ...)` at the moment strategy
                  `s` is checked (the spec requires the validator not to raise);
  * `cb`        — `Option.none` when `self.callback is None`; otherwise
                  `Option.some f` where `f k` tells whether the `k`-th
                  invocation of the callback raises an exception.
Each strategy is invoked at most once per orchestration, so per-strategy
oracles lose no generality.
-/

/-- The three values stored in `scrape_result`: `"none"`, `"success"`, `"failed"`. -/
inductive Status where
  | sNone
  | success
  | failed
deriving DecidableEq, Repr

/-- A fetch capability: an abstract identity together with its Python
`__name__` (used by `register_scraper` to derive a default strategy name). -/
structure Func where
  fid : Nat
  pyName : String
deriving DecidableEq, Repr

/-- The `ScraperFunction` dataclass: `function`, `priority`, `name`,
`check_pdf`.  `has_session` records whether `kwargs` holds a `"session"`
entry (set when `attach_session=True` at registration); the session object
itself is an external collaborator and does not influence the orchestration. -/
structure ScraperFunction where
  function : Func
  priority : Int
  name : String
  check_pdf : Bool
  has_session : Bool
deriving DecidableEq, Repr

/-- Python `dict` assignment `m[k] = v`: update the entry in place when the
key is present, append a new entry at the end otherwise. -/
def dictSet {β : Type} (m : List (String × β)) (k : String) (v : β) :
    List (String × β) :=
  match m with
  | [] => [(k, v)]
  | p :: rest => if p.1 = k then (k, v) :: rest else p :: dictSet rest k v

/-- Python `dict` lookup `m.get(k)`. -/
def dictGet {β : Type} (m : List (String × β)) (k : String) : Option β :=
  match m with
  | [] => Option.none
  | p :: rest => if p.1 = k then Option.some p.2 else dictGet rest k

/-- An outcome map (`scrape_result`): strategy name to status. -/
abbrev OutcomeMap := List (String × Status)

/-- The `Scraper` registry.  The stored `scrapers` list is kept sorted by
priority descending, exactly as `register_scraper` maintains `self.scrapers`;
`sorted_scrapers` is recomputed from it on every registration, so it is
represented by the function `Scraper.sorted_scrapers` below.  The callback is
passed to `scrape` as an oracle (see the module comment). -/
structure Scraper where
  scrapers : List ScraperFunction
deriving DecidableEq, Repr

/-- Left-to-right, non-overlapping removal of the pattern `_scraper` from a
character list: the behaviour of Python's `str.replace("_scraper", "")`
specialized to the constant pattern the source uses (written as structural
recursion over the characters). -/
def stripLoop : List Char → List Char
  | [] => []
  | '_' :: 's' :: 'c' :: 'r' :: 'a' :: 'p' :: 'e' :: 'r' :: rest =>
      stripLoop rest
  | c :: rest => c :: stripLoop rest

/-- `func.__name__.replace("_scraper", "")`. -/
def stripScraperSuffix (s : String) : String :=
  String.mk (stripLoop s.data)

/-- `self.scrapers.sort(key=lambda x: x.priority, reverse=True)`: a stable
sort placing higher priorities first; insertion goes after equal priorities,
matching Python's stable sort of an appended element. -/
def sortByPriorityDesc (l : List ScraperFunction) : List ScraperFunction :=
  List.insertionSort (fun a b => b.priority < a.priority) l

/-- `sorted({s.priority for s in self.scrapers})`: the distinct priorities in
ascending order. -/
def sortedPriorities (l : List ScraperFunction) : List Int :=
  List.insertionSort (fun a b => a ≤ b) (l.map (fun s => s.priority)).dedup

/-- The tier decomposition recomputed at the end of `register_scraper`:
for each distinct priority in ascending order, the list of strategies with
that priority. -/
def Scraper.sorted_scrapers (sc : Scraper) : List (List ScraperFunction) :=
  (sortedPriorities sc.scrapers).map
    (fun p => sc.scrapers.filter (fun s => s.priority == p))

/-- `Scraper.register_scraper(func, attach_session, priority, name, check)`.
(`rate_limit` only parametrizes the external session object and is omitted.)
A `name` of `Option.none` mirrors the Python default `name=None`. -/
def Scraper.register_scraper (sc : Scraper) (func : Func)
    (attach_session : Bool) (priority : Int) (name : Option String)
    (check : Bool) : Scraper :=
  let n := match name with
    | Option.some s => s
    | Option.none => stripScraperSuffix func.pyName
  let sf : ScraperFunction :=
    { function := func, priority := priority, name := n, check_pdf := check,
      has_session := attach_session }
  { scrapers := sortByPriorityDesc (sc.scrapers ++ [sf]) }

/-- `scrape_result = {s.name: "none" for s in self.scrapers}`. -/
def initOutcome (l : List ScraperFunction) : OutcomeMap :=
  l.foldl (fun m s => dictSet m s.name Status.sNone) []

/-- The state threaded through one orchestration: the outcome map, the log of
attempts (strategy name and whether `scrape` accepted that attempt as the
success), and the snapshots passed to each callback invocation. -/
structure SState where
  outcome : OutcomeMap
  attempts : List (String × Bool)
  cbCalls : List OutcomeMap
deriving DecidableEq, Repr

/-- One iteration of the inner loop of `Scraper.scrape` (lines 82–98): invoke
the strategy, on a truthy result passing the `check_pdf` gate mark success and
fire the callback, treating any raised exception (from the fetch or from the
callback) as a failed attempt. -/
def stepStrategy (fetch : ScraperFunction → Except Unit Bool)
    (pdfCheck : ScraperFunction → Bool) (cb : Option (Nat → Bool))
    (s : ScraperFunction) (st : SState) : SState × Bool :=
  match fetch s with
  | Except.error _ =>
      ({ st with outcome := dictSet st.outcome s.name Status.failed,
                 attempts := st.attempts ++ [(s.name, false)] }, false)
  | Except.ok b =>
      if b && (!s.check_pdf || pdfCheck s) then
        let succMap := dictSet st.outcome s.name Status.success
        match cb with
        | Option.none =>
            ({ st with outcome := succMap,
                       attempts := st.attempts ++ [(s.name, true)] }, true)
        | Option.some f =>
            if f st.cbCalls.length then
              ({ outcome := dictSet succMap s.name Status.failed,
                 attempts := st.attempts ++ [(s.name, false)],
                 cbCalls := st.cbCalls ++ [succMap] }, false)
            else
              ({ outcome := succMap,
                 attempts := st.attempts ++ [(s.name, true)],
                 cbCalls := st.cbCalls ++ [succMap] }, true)
      else
        ({ st with outcome := dictSet st.outcome s.name Status.failed,
                   attempts := st.attempts ++ [(s.name, false)] }, false)

/-- The inner `for j in range(len(scrapers))` loop over one (already rotated)
tier, stopping at the first accepted success. -/
def runStrategies (fetch : ScraperFunction → Except Unit Bool)
    (pdfCheck : ScraperFunction → Bool) (cb : Option (Nat → Bool)) :
    List ScraperFunction → SState → SState × Bool
  | [], st => (st, false)
  | s :: rest, st =>
      match stepStrategy fetch pdfCheck cb s st with
      | (st2, true) => (st2, true)
      | (st2, false) => runStrategies fetch pdfCheck cb rest st2

/-- The outer loop of `Scraper.scrape` over the tiers: after an unsuccessful
tier the callback is invoked (lines 99–100); that call is outside the `try`,
so an exception there propagates out of `scrape` (`Except.error ()`). -/
def runTiers (fetch : ScraperFunction → Except Unit Bool)
    (pdfCheck : ScraperFunction → Bool) (cb : Option (Nat → Bool)) :
    List (List ScraperFunction) → SState → SState × Except Unit Bool
  | [], st => (st, Except.ok false)
  | tier :: rest, st =>
      match runStrategies fetch pdfCheck cb tier st with
      | (st2, true) => (st2, Except.ok true)
      | (st2, false) =>
          match cb with
          | Option.none => runTiers fetch pdfCheck cb rest st2
          | Option.some f =>
              let st3 := { st2 with cbCalls := st2.cbCalls ++ [st2.outcome] }
              if f st2.cbCalls.length then (st3, Except.error ())
              else runTiers fetch pdfCheck cb rest st3

instance : Inhabited ScraperFunction :=
  ⟨{ function := ⟨0, ""⟩, priority := 0, name := "", check_pdf := false,
     has_session := false }⟩

/-- The rotated visiting order of one tier: `scrapers[(i + j) % len(scrapers)]`
for `j = 0 .. len(scrapers) - 1` (lines 80–81 of the source; the index is
always in bounds, so the `getD` default is never read). -/
def rotatedTier (i : Nat) (tier : List ScraperFunction) : List ScraperFunction :=
  (List.range tier.length).map
    (fun j => tier.getD ((i + j) % tier.length) default)

/-- The tiers in the order `scrape` visits them (`self.sorted_scrapers[::-1]`,
highest priority first), each already in its rotated order. -/
def Scraper.visitTiers (sc : Scraper) (i : Nat) : List (List ScraperFunction) :=
  sc.sorted_scrapers.reverse.map (rotatedTier i)

/-- `Scraper.scrape(paper, path, i)`: run the tiers from a fresh outcome map.
Returns the final state and either `Except.ok b` (the Python return value) or
`Except.error ()` (an exception escaping from a tier-boundary callback). -/
def Scraper.scrape (sc : Scraper) (fetch : ScraperFunction → Except Unit Bool)
    (pdfCheck : ScraperFunction → Bool) (cb : Option (Nat → Bool)) (i : Nat) :
    SState × Except Unit Bool :=
  runTiers fetch pdfCheck cb (sc.visitTiers i)
    { outcome := initOutcome sc.scrapers, attempts := [], cbCalls := [] }

/-- A strategy attempt that `scrape` accepts as the success: the fetch
returned `True` and either `check_pdf` was registered off or the validator
approves the file. -/
def qualifiesB (fetch : ScraperFunction → Except Unit Bool)
    (pdfCheck : ScraperFunction → Bool) (s : ScraperFunction) : Bool :=
  match fetch s with
  | Except.ok true => !s.check_pdf || pdfCheck s
  | _ => false

/-- The callback oracle never raises (also satisfied by an absent callback). -/
def CbOk (cb : Option (Nat → Bool)) : Prop :=
  ∀ f, cb = Option.some f → ∀ k, f k = false

/-- A record passed through `batch_scrape`: the fields of the Semantic
Scholar paper dict that the orchestrator itself reads. -/
structure Paper where
  paperId : String
  title : String
deriving DecidableEq, Repr

/-- `scrape_parse(paper, i)` inside `batch_scrape`: derive the destination
path `os.path.join(dir, f"{paperId}.pdf")`, run one orchestration, and return
`(path, parser(paper))` on success, `False` (here `Option.none`) otherwise.
An exception escaping the orchestration propagates. -/
def scrapeParse (sc : Scraper) (fetch : Paper → ScraperFunction → Except Unit Bool)
    (pdfCheck : Paper → ScraperFunction → Bool)
    (cb : Option (Paper → Nat → Bool)) (dir : String)
    (parsePaper : Paper → Paper) (p : Paper) (i : Nat) :
    Except Unit (Option (String × Paper)) :=
  let path := dir ++ "/" ++ p.paperId ++ ".pdf"
  match (sc.scrape (fetch p) (pdfCheck p) (cb.map (fun f => f p)) i).2 with
  | Except.error e => Except.error e
  | Except.ok true => Except.ok (Option.some (path, parsePaper p))
  | Except.ok false => Except.ok Option.none

/-- The outcome of a `batch_scrape` run, instrumented with the scheduling
trace: the accumulated `aggregated` dict, the orchestrations launched (paper
together with the rotation index `i + j` it received), and the size of
`aggregated` after each completed window (the value the `limit` test reads). -/
structure BatchTrace where
  aggregated : List (String × Paper)
  launched : List (Paper × Nat)
  windowSizes : List Nat
deriving DecidableEq, Repr

/-- Whether a gathered orchestration raised. -/
def isErr {e a : Type} : Except e a → Bool
  | Except.error _ => true
  | Except.ok _ => false

/-- The results gathered for one window: one `scrape_parse` per paper, with
rotation index `i + j` for the paper at window offset `j`. -/
def windowOuts (sc : Scraper) (fetch : Paper → ScraperFunction → Except Unit Bool)
    (pdfCheck : Paper → ScraperFunction → Bool)
    (cb : Option (Paper → Nat → Bool)) (dir : String)
    (parsePaper : Paper → Paper) (i : Nat) (window : List Paper) :
    List (Except Unit (Option (String × Paper))) :=
  window.enum.map
    (fun jp => scrapeParse sc fetch pdfCheck cb dir parsePaper jp.2 (i + jp.1))

/-- `aggregated |= {r[0]: r[1] for r in ... if r is not False}`: merge the
window's successes into the accumulator, later duplicate paths overwriting. -/
def windowAgg (agg : List (String × Paper))
    (outs : List (Except Unit (Option (String × Paper)))) :
    List (String × Paper) :=
  outs.foldl (fun a r => match r with
    | Except.ok (Option.some kv) => dictSet a kv.1 kv.2
    | _ => a) agg

/-- `limit is not None and len(aggregated) >= limit`. -/
def limitReached (limit : Option Nat) (k : Nat) : Bool :=
  match limit with
  | Option.some L => decide (L ≤ k)
  | Option.none => false

/-- The window loop `for i in range(0, len(papers), batch_size)` of
`batch_scrape`, with window size `b + 1` (`batch_size` is positive here:
`range` with step `0` raises `ValueError`, handled in `batch_scrape` below).
Each window gathers one `scrape_parse` per paper with rotation index
`i + j`, merges the successes into `aggregated`, and stops before the next
window once `limit` is reached.  An exception from any orchestration in the
window propagates out of the `asyncio.gather`. -/
def batchGo (sc : Scraper) (fetch : Paper → ScraperFunction → Except Unit Bool)
    (pdfCheck : Paper → ScraperFunction → Bool)
    (cb : Option (Paper → Nat → Bool)) (dir : String)
    (parsePaper : Paper → Paper) (b : Nat) (limit : Option Nat) :
    Nat → List Paper → List (String × Paper) → Except Unit BatchTrace
  | _, [], agg =>
      Except.ok { aggregated := agg, launched := [], windowSizes := [] }
  | i, p :: ps, agg =>
      let window := (p :: ps).take (b + 1)
      let outs := windowOuts sc fetch pdfCheck cb dir parsePaper i window
      if outs.any isErr then
        Except.error ()
      else
        let agg2 := windowAgg agg outs
        let lTrace := window.enum.map (fun jp => (jp.2, i + jp.1))
        if limitReached limit agg2.length then
          Except.ok { aggregated := agg2, launched := lTrace,
                      windowSizes := [agg2.length] }
        else
          match batchGo sc fetch pdfCheck cb dir parsePaper b limit
              (i + (b + 1)) (ps.drop b) agg2 with
          | Except.error e => Except.error e
          | Except.ok t =>
              Except.ok { aggregated := t.aggregated,
                          launched := lTrace ++ t.launched,
                          windowSizes := agg2.length :: t.windowSizes }
termination_by _ papers _ => papers.length
decreasing_by simp [List.length_drop]; omega

/-- `Scraper.batch_scrape(papers, dir, parser, batch_size, limit)`.
A `batch_size` of `0` makes `range(0, len(papers), 0)` raise `ValueError`
before any window runs. -/
def Scraper.batch_scrape (sc : Scraper)
    (fetch : Paper → ScraperFunction → Except Unit Bool)
    (pdfCheck : Paper → ScraperFunction → Bool)
    (cb : Option (Paper → Nat → Bool)) (dir : String)
    (parsePaper : Paper → Paper) (papers : List Paper) (batch_size : Nat)
    (limit : Option Nat) : Except Unit BatchTrace :=
  match batch_size with
  | 0 => Except.error ()
  | b + 1 => batchGo sc fetch pdfCheck cb dir parsePaper b limit 0 papers []

/-! ### Dictionary lemmas -/

theorem dictGet_dictSet_self {β : Type} (m : List (String × β)) (k : String)
    (v : β) : dictGet (dictSet m k v) k = Option.some v := by
  induction m with
  | nil => simp [dictSet, dictGet]
  | cons p m ih =>
    by_cases hp : p.1 = k <;> simp [dictSet, dictGet, hp, ih]

theorem dictGet_dictSet_ne {β : Type} (m : List (String × β)) (k k2 : String)
    (v : β) (h : k2 ≠ k) : dictGet (dictSet m k v) k2 = dictGet m k2 := by
  induction m with
  | nil => simp [dictSet, dictGet, Ne.symm h]
  | cons p m ih =>
    by_cases hp : p.1 = k
    · have hp2 : ¬p.1 = k2 := fun hc => h (hc ▸ hp ▸ rfl)
      simp [dictSet, dictGet, hp, hp2, Ne.symm h]
    · by_cases hp2 : p.1 = k2 <;> simp [dictSet, dictGet, hp, hp2, h, ih]

theorem dictSet_length_le {β : Type} (m : List (String × β)) (k : String)
    (v : β) : (dictSet m k v).length ≤ m.length + 1 := by
  induction m with
  | nil => simp [dictSet]
  | cons p m ih =>
    by_cases hp : p.1 = k <;> simp [dictSet, hp] <;> try omega

/-! ### Writing one constant status for a list of strategies -/

/-- Mark every strategy of `l` (in order) with the constant status `v`,
starting from the map `m`; `initOutcome` and the repeated `"failed"`
assignments of the orchestration loop are both of this shape. -/
def markConst (v : Status) (m : OutcomeMap) (l : List ScraperFunction) :
    OutcomeMap :=
  l.foldl (fun m2 s => dictSet m2 s.name v) m

theorem markConst_nil (v : Status) (m : OutcomeMap) : markConst v m [] = m :=
  rfl

theorem markConst_cons (v : Status) (m : OutcomeMap) (s : ScraperFunction)
    (l : List ScraperFunction) :
    markConst v m (s :: l) = markConst v (dictSet m s.name v) l :=
  rfl

theorem markConst_append (v : Status) (m : OutcomeMap)
    (l1 l2 : List ScraperFunction) :
    markConst v m (l1 ++ l2) = markConst v (markConst v m l1) l2 := by
  simp [markConst, List.foldl_append]

theorem initOutcome_eq_markConst (l : List ScraperFunction) :
    initOutcome l = markConst Status.sNone [] l :=
  rfl

theorem dictGet_markConst_not_mem (v : Status) (m : OutcomeMap)
    (l : List ScraperFunction) (k : String)
    (h : k ∉ l.map (fun s => s.name)) :
    dictGet (markConst v m l) k = dictGet m k := by
  induction l generalizing m with
  | nil => rfl
  | cons s l ih =>
    simp only [List.map_cons, List.mem_cons, not_or] at h
    rw [markConst_cons, ih _ h.2, dictGet_dictSet_ne _ _ _ _ h.1]

theorem dictGet_markConst_mem (v : Status) (m : OutcomeMap)
    (l : List ScraperFunction) (k : String)
    (h : k ∈ l.map (fun s => s.name)) :
    dictGet (markConst v m l) k = Option.some v := by
  induction l generalizing m with
  | nil => simp at h
  | cons s l ih =>
    rw [markConst_cons]
    by_cases hl : k ∈ l.map (fun s => s.name)
    · exact ih _ hl
    · simp only [List.map_cons, List.mem_cons] at h
      rcases h with h | h

      · rw [dictGet_markConst_not_mem _ _ _ _ hl, h, dictGet_dictSet_self]
      · exact absurd h hl

theorem dictGet_markConst_cases (v : Status) (m : OutcomeMap)
    (l : List ScraperFunction) (k : String) (w : Status)
    (h : dictGet (markConst v m l) k = Option.some w) :
    w = v ∨ dictGet m k = Option.some w := by
  by_cases hl : k ∈ l.map (fun s => s.name)
  · rw [dictGet_markConst_mem _ _ _ _ hl] at h
    exact Or.inl (Option.some.inj h).symm
  · rw [dictGet_markConst_not_mem _ _ _ _ hl] at h
    exact Or.inr h

theorem dictGet_initOutcome_not_success (l : List ScraperFunction)
    (k : String) :
    dictGet (initOutcome l) k ≠ Option.some Status.success := by
  intro h
  rw [initOutcome_eq_markConst] at h
  rcases dictGet_markConst_cases _ _ _ _ _ h with h1 | h1
  · exact Status.noConfusion h1
  · simp [dictGet] at h1

/-! ### Closed forms for the orchestration loops -/

/-- The state after a run of attempts that all end in `"failed"`. -/
def failState (st : SState) (l : List ScraperFunction) : SState :=
  { outcome := markConst Status.failed st.outcome l,
    attempts := st.attempts ++ l.map (fun s => (s.name, false)),
    cbCalls := st.cbCalls }

theorem failState_nil (st : SState) : failState st [] = st := by
  simp [failState, markConst]

theorem failState_append (st : SState) (l1 l2 : List ScraperFunction) :
    failState (failState st l1) l2 = failState st (l1 ++ l2) := by
  simp [failState, markConst_append]

theorem stepStrategy_notQual (fetch : ScraperFunction → Except Unit Bool)
    (pdfCheck : ScraperFunction → Bool) (cb : Option (Nat → Bool))
    (s : ScraperFunction) (st : SState)
    (h : qualifiesB fetch pdfCheck s = false) :
    stepStrategy fetch pdfCheck cb s st = (failState st [s], false) := by
  unfold qualifiesB at h
  unfold stepStrategy
  cases hf : fetch s with
  | error e => simp [failState, markConst, dictSet]
  | ok b =>
    cases b with
    | false => simp [failState, markConst]
    | true =>
      rw [hf] at h
      have h2 : (!s.check_pdf || pdfCheck s) = false := h
      simp [h2, failState, markConst]

theorem stepStrategy_qual_cbNone (fetch : ScraperFunction → Except Unit Bool)
    (pdfCheck : ScraperFunction → Bool) (s : ScraperFunction) (st : SState)
    (h : qualifiesB fetch pdfCheck s = true) :
    stepStrategy fetch pdfCheck Option.none s st =
      ({ st with outcome := dictSet st.outcome s.name Status.success,
                 attempts := st.attempts ++ [(s.name, true)] }, true) := by
  unfold qualifiesB at h
  unfold stepStrategy
  cases hf : fetch s with
  | error e => rw [hf] at h; exact absurd h (by simp)
  | ok b =>
    cases b with
    | false => rw [hf] at h; exact absurd h (by simp)
    | true =>
      rw [hf] at h
      have h2 : (!s.check_pdf || pdfCheck s) = true := h
      simp [h2]

theorem stepStrategy_qual_cbFalse (fetch : ScraperFunction → Except Unit Bool)
    (pdfCheck : ScraperFunction → Bool) (f : Nat → Bool)
    (s : ScraperFunction) (st : SState)
    (h : qualifiesB fetch pdfCheck s = true)
    (hf : f st.cbCalls.length = false) :
    stepStrategy fetch pdfCheck (Option.some f) s st =
      ({ outcome := dictSet st.outcome s.name Status.success,
         attempts := st.attempts ++ [(s.name, true)],
         cbCalls := st.cbCalls ++ [dictSet st.outcome s.name Status.success] },
       true) := by
  unfold qualifiesB at h
  unfold stepStrategy
  cases hfe : fetch s with
  | error e => rw [hfe] at h; exact absurd h (by simp)
  | ok b =>
    cases b with
    | false => rw [hfe] at h; exact absurd h (by simp)
    | true =>
      rw [hfe] at h
      have h2 : (!s.check_pdf || pdfCheck s) = true := h
      simp [h2, hf]

theorem stepStrategy_qual_cbTrue (fetch : ScraperFunction → Except Unit Bool)
    (pdfCheck : ScraperFunction → Bool) (f : Nat → Bool)
    (s : ScraperFunction) (st : SState)
    (h : qualifiesB fetch pdfCheck s = true)
    (hf : f st.cbCalls.length = true) :
    stepStrategy fetch pdfCheck (Option.some f) s st =
      ({ outcome := dictSet (dictSet st.outcome s.name Status.success) s.name
           Status.failed,
         attempts := st.attempts ++ [(s.name, false)],
         cbCalls := st.cbCalls ++ [dictSet st.outcome s.name Status.success] },
       false) := by
  unfold qualifiesB at h
  unfold stepStrategy
  cases hfe : fetch s with
  | error e => rw [hfe] at h; exact absurd h (by simp)
  | ok b =>
    cases b with
    | false => rw [hfe] at h; exact absurd h (by simp)
    | true =>
      rw [hfe] at h
      have h2 : (!s.check_pdf || pdfCheck s) = true := h
      simp [h2, hf]

theorem runStrategies_allFail (fetch : ScraperFunction → Except Unit Bool)
    (pdfCheck : ScraperFunction → Bool) (cb : Option (Nat → Bool))
    (l : List ScraperFunction) (st : SState)
    (h : ∀ s ∈ l, qualifiesB fetch pdfCheck s = false) :
    runStrategies fetch pdfCheck cb l st = (failState st l, false) := by
  induction l generalizing st with
  | nil => simp [runStrategies, failState_nil]
  | cons s l ih =>
    rw [runStrategies, stepStrategy_notQual fetch pdfCheck cb s st (h s (by simp))]
    show runStrategies fetch pdfCheck cb l (failState st [s]) =
      (failState st (s :: l), false)
    rw [ih _ (fun s2 hs2 => h s2 (by simp [hs2])), failState_append]
    rfl

theorem runStrategies_failPrefix (fetch : ScraperFunction → Except Unit Bool)
    (pdfCheck : ScraperFunction → Bool) (cb : Option (Nat → Bool))
    (l1 l2 : List ScraperFunction) (st : SState)
    (h : ∀ s ∈ l1, qualifiesB fetch pdfCheck s = false) :
    runStrategies fetch pdfCheck cb (l1 ++ l2) st =
      runStrategies fetch pdfCheck cb l2 (failState st l1) := by
  induction l1 generalizing st with
  | nil => simp [failState_nil]
  | cons s l1 ih =>
    rw [List.cons_append, runStrategies,
      stepStrategy_notQual fetch pdfCheck cb s st (h s (by simp))]
    show runStrategies fetch pdfCheck cb (l1 ++ l2) (failState st [s]) =
      runStrategies fetch pdfCheck cb l2 (failState st (s :: l1))
    rw [ih _ (fun s2 hs2 => h s2 (by simp [hs2]))]
    rw [show failState st (s :: l1) = failState (failState st [s]) l1 from
      (failState_append st [s] l1).symm]

/-- The state in which `scrape` returns `True`: the strategies of `pre`
failed, `s0` was accepted as the success, and (when a callback is present)
the callback received the final outcome map. -/
def succState (cb : Option (Nat → Bool)) (st : SState)
    (pre : List ScraperFunction) (s0 : ScraperFunction) : SState :=
  { outcome := dictSet (markConst Status.failed st.outcome pre) s0.name
      Status.success,
    attempts := st.attempts ++ pre.map (fun s => (s.name, false)) ++
      [(s0.name, true)],
    cbCalls := st.cbCalls ++ (match cb with
      | Option.none => []
      | Option.some _ =>
          [dictSet (markConst Status.failed st.outcome pre) s0.name
            Status.success]) }

theorem runStrategies_firstQual (fetch : ScraperFunction → Except Unit Bool)
    (pdfCheck : ScraperFunction → Bool) (cb : Option (Nat → Bool))
    (pre post : List ScraperFunction) (s0 : ScraperFunction) (st : SState)
    (hpre : ∀ s ∈ pre, qualifiesB fetch pdfCheck s = false)
    (h0 : qualifiesB fetch pdfCheck s0 = true)
    (hcb : ∀ f, cb = Option.some f → f st.cbCalls.length = false) :
    runStrategies fetch pdfCheck cb (pre ++ s0 :: post) st =
      (succState cb st pre s0, true) := by
  rw [runStrategies_failPrefix fetch pdfCheck cb pre _ st hpre, runStrategies]
  cases cb with
  | none =>
    rw [stepStrategy_qual_cbNone fetch pdfCheck s0 _ h0]
    simp [succState, failState]
  | some f =>
    rw [stepStrategy_qual_cbFalse fetch pdfCheck f s0 _ h0
      (by simpa [failState] using hcb f rfl)]
    simp [succState, failState]

/-- The state after an accepted attempt whose success callback raised:
the exception is caught, the strategy is re-marked `"failed"`, and the loop
moves on. -/
def cbRaiseState (st : SState) (pre : List ScraperFunction)
    (s0 : ScraperFunction) : SState :=
  { outcome := dictSet (dictSet (markConst Status.failed st.outcome pre)
      s0.name Status.success) s0.name Status.failed,
    attempts := st.attempts ++ pre.map (fun s => (s.name, false)) ++
      [(s0.name, false)],
    cbCalls := st.cbCalls ++
      [dictSet (markConst Status.failed st.outcome pre) s0.name
        Status.success] }

theorem runStrategies_qualRaise (fetch : ScraperFunction → Except Unit Bool)
    (pdfCheck : ScraperFunction → Bool) (f : Nat → Bool)
    (pre post : List ScraperFunction) (s0 : ScraperFunction) (st : SState)
    (hpre : ∀ s ∈ pre, qualifiesB fetch pdfCheck s = false)
    (h0 : qualifiesB fetch pdfCheck s0 = true)
    (hf : f st.cbCalls.length = true) :
    runStrategies fetch pdfCheck (Option.some f) (pre ++ s0 :: post) st =
      runStrategies fetch pdfCheck (Option.some f) post
        (cbRaiseState st pre s0) := by
  rw [runStrategies_failPrefix fetch pdfCheck _ pre _ st hpre, runStrategies]
  rw [stepStrategy_qual_cbTrue fetch pdfCheck f s0 _ h0
    (by simpa [failState] using hf)]
  simp [cbRaiseState, failState]

/-- The snapshots passed to the tier-boundary callback when no tier
succeeds: after each tier, its strategies (and all earlier ones) have been
marked `"failed"` on top of the map `m`. -/
def tierSnapshots (m : OutcomeMap) : List (List ScraperFunction) → List OutcomeMap
  | [] => []
  | t :: rest =>
      markConst Status.failed m t :: tierSnapshots (markConst Status.failed m t) rest

theorem tierSnapshots_length (m : OutcomeMap)
    (A : List (List ScraperFunction)) :
    (tierSnapshots m A).length = A.length := by
  induction A generalizing m with
  | nil => rfl
  | cons t A ih => simp [tierSnapshots, ih]

/-- The state after a run of complete tiers none of whose strategies was
accepted: everything failed, one callback snapshot per tier. -/
def afterTiers (cb : Option (Nat → Bool)) (st : SState)
    (tiers : List (List ScraperFunction)) : SState :=
  { outcome := markConst Status.failed st.outcome tiers.flatten,
    attempts := st.attempts ++ tiers.flatten.map (fun s => (s.name, false)),
    cbCalls := st.cbCalls ++ (match cb with
      | Option.none => []
      | Option.some _ => tierSnapshots st.outcome tiers) }

theorem afterTiers_nil (cb : Option (Nat → Bool)) (st : SState) :
    afterTiers cb st [] = st := by
  cases cb <;> simp [afterTiers, tierSnapshots, markConst]

theorem runTiers_cons_true (fetch : ScraperFunction → Except Unit Bool)
    (pdfCheck : ScraperFunction → Bool) (cb : Option (Nat → Bool))
    (tier : List ScraperFunction) (rest : List (List ScraperFunction))
    (st st2 : SState)
    (h : runStrategies fetch pdfCheck cb tier st = (st2, true)) :
    runTiers fetch pdfCheck cb (tier :: rest) st = (st2, Except.ok true) := by
  rw [runTiers, h]

theorem runTiers_cons_false_none (fetch : ScraperFunction → Except Unit Bool)
    (pdfCheck : ScraperFunction → Bool)
    (tier : List ScraperFunction) (rest : List (List ScraperFunction))
    (st st2 : SState)
    (h : runStrategies fetch pdfCheck Option.none tier st = (st2, false)) :
    runTiers fetch pdfCheck Option.none (tier :: rest) st =
      runTiers fetch pdfCheck Option.none rest st2 := by
  rw [runTiers, h]

theorem runTiers_cons_false_some_ok (fetch : ScraperFunction → Except Unit Bool)
    (pdfCheck : ScraperFunction → Bool) (f : Nat → Bool)
    (tier : List ScraperFunction) (rest : List (List ScraperFunction))
    (st st2 : SState)
    (h : runStrategies fetch pdfCheck (Option.some f) tier st = (st2, false))
    (hf : f st2.cbCalls.length = false) :
    runTiers fetch pdfCheck (Option.some f) (tier :: rest) st =
      runTiers fetch pdfCheck (Option.some f) rest
        { st2 with cbCalls := st2.cbCalls ++ [st2.outcome] } := by
  rw [runTiers, h]
  show (if f st2.cbCalls.length then _ else _) = _
  rw [hf]
  exact if_neg (by simp)

theorem runTiers_cons_false_some_raise
    (fetch : ScraperFunction → Except Unit Bool)
    (pdfCheck : ScraperFunction → Bool) (f : Nat → Bool)
    (tier : List ScraperFunction) (rest : List (List ScraperFunction))
    (st st2 : SState)
    (h : runStrategies fetch pdfCheck (Option.some f) tier st = (st2, false))
    (hf : f st2.cbCalls.length = true) :
    runTiers fetch pdfCheck (Option.some f) (tier :: rest) st =
      ({ st2 with cbCalls := st2.cbCalls ++ [st2.outcome] },
        Except.error ()) := by
  rw [runTiers, h]
  show (if f st2.cbCalls.length then _ else _) = _
  rw [hf]
  exact if_pos rfl

theorem runTiers_failPrefix (fetch : ScraperFunction → Except Unit Bool)
    (pdfCheck : ScraperFunction → Bool) (cb : Option (Nat → Bool))
    (A B : List (List ScraperFunction)) (st : SState)
    (hA : ∀ s ∈ A.flatten, qualifiesB fetch pdfCheck s = false)
    (hcb : ∀ f, cb = Option.some f →
      ∀ t, t < A.length → f (st.cbCalls.length + t) = false) :
    runTiers fetch pdfCheck cb (A ++ B) st =
      runTiers fetch pdfCheck cb B (afterTiers cb st A) := by
  induction A generalizing st with
  | nil => rw [afterTiers_nil]; rfl
  | cons t A ih =>
    have hrs : runStrategies fetch pdfCheck cb t st = (failState st t, false) :=
      runStrategies_allFail fetch pdfCheck cb t st
        (fun s hs => hA s (by simp [hs]))
    have hAtail : ∀ s ∈ A.flatten, qualifiesB fetch pdfCheck s = false :=
      fun s hs => hA s (by simp [hs])
    cases cb with
    | none =>
      rw [List.cons_append,
        runTiers_cons_false_none fetch pdfCheck t (A ++ B) st _ hrs,
        ih (failState st t) hAtail (fun f hf => Option.noConfusion hf)]
      congr 1
      simp [afterTiers, failState, markConst_append]
    | some f =>
      have h0 : f (failState st t).cbCalls.length = false := by
        have := hcb f rfl 0 (by simp)
        simpa [failState] using this
      rw [List.cons_append,
        runTiers_cons_false_some_ok fetch pdfCheck f t (A ++ B) st _ hrs h0]
      have hcb2 : ∀ f2, Option.some f = Option.some f2 →
          ∀ t2, t2 < A.length →
            f2 (({ failState st t with
              cbCalls := (failState st t).cbCalls ++
                [(failState st t).outcome] } : SState).cbCalls.length + t2) =
              false := by
        intro f2 hf2 t2 ht2
        cases hf2
        have := hcb f rfl (t2 + 1) (by simp only [List.length_cons]; omega)
        have harith : ({ failState st t with
            cbCalls := (failState st t).cbCalls ++
              [(failState st t).outcome] } : SState).cbCalls.length + t2 =
            st.cbCalls.length + (t2 + 1) := by
          simp [failState]
          omega
        rw [harith]
        exact this
      rw [ih _ hAtail hcb2]
      congr 1
      simp [afterTiers, failState, markConst_append, tierSnapshots]

theorem runTiers_exhaust (fetch : ScraperFunction → Except Unit Bool)
    (pdfCheck : ScraperFunction → Bool) (cb : Option (Nat → Bool))
    (A : List (List ScraperFunction)) (st : SState)
    (hA : ∀ s ∈ A.flatten, qualifiesB fetch pdfCheck s = false)
    (hcb : ∀ f, cb = Option.some f →
      ∀ t, t < A.length → f (st.cbCalls.length + t) = false) :
    runTiers fetch pdfCheck cb A st = (afterTiers cb st A, Except.ok false) := by
  have h := runTiers_failPrefix fetch pdfCheck cb A [] st hA hcb
  rw [List.append_nil] at h
  rw [h, runTiers]

theorem runTiers_firstQual (fetch : ScraperFunction → Except Unit Bool)
    (pdfCheck : ScraperFunction → Bool) (cb : Option (Nat → Bool))
    (A B : List (List ScraperFunction)) (pre post : List ScraperFunction)
    (s0 : ScraperFunction) (st : SState)
    (hA : ∀ s ∈ A.flatten, qualifiesB fetch pdfCheck s = false)
    (hpre : ∀ s ∈ pre, qualifiesB fetch pdfCheck s = false)
    (h0 : qualifiesB fetch pdfCheck s0 = true)
    (hcb : ∀ f, cb = Option.some f →
      ∀ t, t ≤ A.length → f (st.cbCalls.length + t) = false) :
    runTiers fetch pdfCheck cb (A ++ (pre ++ s0 :: post) :: B) st =
      (succState cb (afterTiers cb st A) pre s0, Except.ok true) := by
  rw [runTiers_failPrefix fetch pdfCheck cb A _ st hA
    (fun f hf t ht => hcb f hf t (Nat.le_of_lt ht))]
  have hcb3 : ∀ f, cb = Option.some f →
      f (afterTiers cb st A).cbCalls.length = false := by
    intro f hf
    cases hf
    have hlen : (afterTiers (Option.some f) st A).cbCalls.length =
        st.cbCalls.length + A.length := by
      simp [afterTiers, tierSnapshots_length]
    rw [hlen]
    exact hcb f rfl A.length (Nat.le_refl _)
  exact runTiers_cons_true fetch pdfCheck cb _ B _ _
    (runStrategies_firstQual fetch pdfCheck cb pre post s0 _ hpre h0 hcb3)

theorem runTiers_cbNone_ok (fetch : ScraperFunction → Except Unit Bool)
    (pdfCheck : ScraperFunction → Bool)
    (tiers : List (List ScraperFunction)) (st : SState) :
    ∃ b, (runTiers fetch pdfCheck Option.none tiers st).2 = Except.ok b := by
  induction tiers generalizing st with
  | nil => exact ⟨false, rfl⟩
  | cons t rest ih =>
    rcases hr : runStrategies fetch pdfCheck Option.none t st with ⟨st2, b⟩
    cases b with
    | true =>
      rw [runTiers_cons_true fetch pdfCheck Option.none t rest st st2 hr]
      exact ⟨true, rfl⟩
    | false =>
      rw [runTiers_cons_false_none fetch pdfCheck t rest st st2 hr]
      exact ih st2

/-! ### Rotation facts -/

theorem rotatedTier_length (i : Nat) (tier : List ScraperFunction) :
    (rotatedTier i tier).length = tier.length := by
  simp [rotatedTier]

theorem rotatedTier_getElem? (i j : Nat) (tier : List ScraperFunction)
    (hj : j < tier.length) :
    (rotatedTier i tier)[j]? = tier[(i + j) % tier.length]? := by
  have hn : 0 < tier.length := Nat.lt_of_le_of_lt (Nat.zero_le j) hj
  have hk : (i + j) % tier.length < tier.length := Nat.mod_lt _ hn
  simp [rotatedTier, List.getElem?_range, hj, List.getElem?_eq_getElem, hk,
    List.getD_eq_getElem?_getD]

theorem rotatedTier_eq_rotate (i : Nat) (tier : List ScraperFunction) :
    rotatedTier i tier = tier.rotate i := by
  apply List.ext_getElem?
  intro j
  by_cases hj : j < tier.length
  · rw [rotatedTier_getElem? i j tier hj, List.getElem?_rotate hj,
      Nat.add_comm j i]
  · have h1 : tier.length ≤ j := Nat.le_of_not_lt hj
    rw [List.getElem?_eq_none ((rotatedTier_length i tier).le.trans h1),
      List.getElem?_eq_none ((List.length_rotate tier i).le.trans h1)]

theorem rotatedTier_perm (i : Nat) (tier : List ScraperFunction) :
    List.Perm (rotatedTier i tier) tier := by
  rw [rotatedTier_eq_rotate]
  exact tier.rotate_perm i

/-! ### Execution-plan facts -/

theorem sortedPriorities_nodup (l : List ScraperFunction) :
    (sortedPriorities l).Nodup :=
  (List.perm_insertionSort _ _).symm.nodup
    (List.nodup_dedup (l.map (fun s => s.priority)))

theorem mem_sortedPriorities (l : List ScraperFunction)
    (s : ScraperFunction) (hs : s ∈ l) : s.priority ∈ sortedPriorities l :=
  (List.mem_insertionSort _).mpr
    (List.mem_dedup.mpr (List.mem_map.mpr ⟨s, hs, rfl⟩))

theorem sortedPriorities_mem_exists (l : List ScraperFunction) (p : Int)
    (hp : p ∈ sortedPriorities l) : ∃ s ∈ l, s.priority = p := by
  have h1 : p ∈ (l.map (fun s => s.priority)).dedup :=
    (List.mem_insertionSort _).mp hp
  have h2 := List.mem_dedup.mp h1
  rcases List.mem_map.mp h2 with ⟨s, hs, hsp⟩
  exact ⟨s, hs, hsp⟩

theorem sortedPriorities_pairwise_lt (l : List ScraperFunction) :
    (sortedPriorities l).Pairwise (fun a b => a < b) := by
  have hs : (sortedPriorities l).Pairwise (fun a b => a ≤ b) :=
    List.sorted_insertionSort _ _
  have hn : (sortedPriorities l).Pairwise (fun a b => a ≠ b) :=
    sortedPriorities_nodup l
  exact (hs.and hn).imp (fun h => lt_of_le_of_ne h.1 h.2)

theorem filter_not_filter_perm {α : Type} (p : α → Bool) (l : List α) :
    List.Perm (l.filter p ++ l.filter (fun a => !p a)) l := by
  induction l with
  | nil => simp
  | cons a l ih =>
    by_cases hp : p a
    · simpa [List.filter_cons, hp] using ih.cons a
    · simp only [List.filter_cons, hp, Bool.not_false, if_neg,
        Bool.false_eq_true, not_false_iff, if_pos]
      exact List.perm_middle.trans (ih.cons a)

theorem plan_flatten_perm_aux (ps : List Int) (l : List ScraperFunction)
    (hnd : ps.Nodup) (hcov : ∀ s ∈ l, s.priority ∈ ps) :
    List.Perm
      ((ps.map (fun p => l.filter (fun s => s.priority == p))).flatten) l := by
  induction ps generalizing l with
  | nil =>
    cases l with
    | nil => simp
    | cons s l => exact absurd (hcov s (by simp)) (by simp)
  | cons p ps ih =>
    have hpnotin : p ∉ ps := (List.nodup_cons.mp hnd).1
    have hstep : ∀ q ∈ ps, l.filter (fun s => s.priority == q) =
        (l.filter (fun s => !(s.priority == p))).filter
          (fun s => s.priority == q) := by
      intro q hq
      rw [List.filter_filter]
      apply List.filter_congr
      intro s _
      by_cases hsq : s.priority = q
      · have hqp : ¬(q = p) := fun hc => hpnotin (hc ▸ hq)
        simp [hsq, hqp]
      · simp [hsq]
    have hmap : ps.map (fun q => l.filter (fun s => s.priority == q)) =
        ps.map (fun q => (l.filter (fun s => !(s.priority == p))).filter
          (fun s => s.priority == q)) :=
      List.map_congr_left hstep
    have hcov2 : ∀ s ∈ l.filter (fun s => !(s.priority == p)),
        s.priority ∈ ps := by
      intro s hs
      rcases List.mem_filter.mp hs with ⟨hsl, hsp⟩
      have := hcov s hsl
      simp only [List.mem_cons] at this
      rcases this with h | h
      · exact absurd h (by simpa using hsp)
      · exact h
    have ihapp := ih (l.filter (fun s => !(s.priority == p)))
      (List.nodup_cons.mp hnd).2 hcov2
    refine List.Perm.trans ?_
      (filter_not_filter_perm (fun s => s.priority == p) l)
    rw [List.map_cons, List.flatten_cons, hmap]
    exact List.Perm.append_left _ ihapp

theorem sorted_scrapers_flatten_perm (sc : Scraper) :
    List.Perm sc.sorted_scrapers.flatten sc.scrapers :=
  plan_flatten_perm_aux (sortedPriorities sc.scrapers) sc.scrapers
    (sortedPriorities_nodup sc.scrapers)
    (fun s hs => mem_sortedPriorities sc.scrapers s hs)

theorem flatten_reverse_perm {α : Type} (L : List (List α)) :
    List.Perm L.reverse.flatten L.flatten := by
  induction L with
  | nil => exact List.Perm.refl _
  | cons t L ih =>
    simp only [List.reverse_cons, List.flatten_append, List.flatten_cons,
      List.flatten_nil, List.append_nil]
    exact (ih.append_right t).trans List.perm_append_comm

theorem visitTiers_flatten_perm (sc : Scraper) (i : Nat) :
    List.Perm (sc.visitTiers i).flatten sc.scrapers := by
  have h1 : List.Perm (sc.visitTiers i).flatten sc.sorted_scrapers.reverse.flatten := by
    apply List.Perm.flatten_congr
    rw [Scraper.visitTiers, List.forall₂_map_left_iff]
    rw [List.forall₂_same]
    intro t _
    exact rotatedTier_perm i t
  exact h1.trans ((flatten_reverse_perm _).trans (sorted_scrapers_flatten_perm sc))

theorem sorted_scrapers_mem (sc : Scraper) (tier : List ScraperFunction)
    (h : tier ∈ sc.sorted_scrapers) :
    ∃ p, p ∈ sortedPriorities sc.scrapers ∧
      tier = sc.scrapers.filter (fun s => s.priority == p) := by
  rcases List.mem_map.mp h with ⟨p, hp, ht⟩
  exact ⟨p, hp, ht.symm⟩

theorem sorted_scrapers_tier_ne_nil (sc : Scraper)
    (tier : List ScraperFunction) (h : tier ∈ sc.sorted_scrapers) :
    tier ≠ [] := by
  rcases sorted_scrapers_mem sc tier h with ⟨p, hp, ht⟩
  rcases sortedPriorities_mem_exists sc.scrapers p hp with ⟨s, hs, hsp⟩
  have hmem : s ∈ tier := by
    rw [ht]
    exact List.mem_filter.mpr ⟨hs, by simp [hsp]⟩
  exact List.ne_nil_of_mem hmem

theorem sorted_scrapers_tier_priority (sc : Scraper)
    (tier : List ScraperFunction) (h : tier ∈ sc.sorted_scrapers)
    (s1 s2 : ScraperFunction) (h1 : s1 ∈ tier) (h2 : s2 ∈ tier) :
    s1.priority = s2.priority := by
  rcases sorted_scrapers_mem sc tier h with ⟨p, _, ht⟩
  rw [ht] at h1 h2
  have e1 := (List.mem_filter.mp h1).2
  have e2 := (List.mem_filter.mp h2).2
  simp only [beq_iff_eq] at e1 e2
  rw [e1, e2]

theorem visitTiers_pairwise_desc (sc : Scraper) (i : Nat) :
    (sc.visitTiers i).Pairwise
      (fun t1 t2 => ∀ s1 ∈ t1, ∀ s2 ∈ t2, s2.priority < s1.priority) := by
  have hbase : sc.sorted_scrapers.reverse.Pairwise
      (fun t1 t2 => ∀ s1 ∈ t1, ∀ s2 ∈ t2, s2.priority < s1.priority) := by
    rw [List.pairwise_reverse]
    unfold Scraper.sorted_scrapers
    rw [List.pairwise_map]
    apply (sortedPriorities_pairwise_lt sc.scrapers).imp
    intro p q hpq s1 h1 s2 h2
    have e1 := (List.mem_filter.mp h1).2
    have e2 := (List.mem_filter.mp h2).2
    simp only [beq_iff_eq] at e1 e2
    rw [e1, e2]
    exact hpq
  unfold Scraper.visitTiers
  rw [List.pairwise_map]
  apply hbase.imp
  intro t1 t2 ht s1 h1 s2 h2
  exact ht s1 ((rotatedTier_perm i t1).mem_iff.mp h1)
    s2 ((rotatedTier_perm i t2).mem_iff.mp h2)

theorem sorted_scrapers_sum_length (sc : Scraper) :
    (sc.sorted_scrapers.map List.length).sum = sc.scrapers.length := by
  rw [← List.length_flatten]
  exact (sorted_scrapers_flatten_perm sc).length_eq

theorem flatten_split {α : Type} :
    ∀ (tiers : List (List α)) (A B : List α) (s0 : α),
    tiers.flatten = A ++ s0 :: B →
    ∃ T1 pre post T2, tiers = T1 ++ (pre ++ s0 :: post) :: T2 ∧
      A = T1.flatten ++ pre ∧ B = post ++ T2.flatten := by
  intro tiers
  induction tiers with
  | nil =>
    intro A B s0 h
    simp only [List.flatten_nil] at h
    exact absurd h.symm (List.append_ne_nil_of_right_ne_nil A (by simp))
  | cons t rest ih =>
    intro A B s0 h
    rw [List.flatten_cons] at h
    rcases List.append_eq_append_iff.mp h with ⟨a2, ha1, ha2⟩ | ⟨c2, hc1, hc2⟩
    · rcases ih a2 B s0 ha2 with ⟨T1, pre, post, T2, he, hA, hB⟩
      refine ⟨t :: T1, pre, post, T2, by rw [he]; rfl, ?_, hB⟩
      rw [ha1, hA, List.flatten_cons, List.append_assoc]
    · cases c2 with
      | nil =>
        rw [List.append_nil] at hc1
        have hrf : rest.flatten = [] ++ s0 :: B := by
          simp only [List.nil_append] at hc2 ⊢
          exact hc2.symm
        rcases ih [] B s0 hrf with ⟨T1, pre, post, T2, he, hA0, hB⟩
        refine ⟨t :: T1, pre, post, T2, by rw [he]; rfl, ?_, hB⟩
        rw [List.flatten_cons, List.append_assoc, ← hA0, List.append_nil]
        exact hc1.symm
      | cons x c2 =>
        rw [List.cons_append] at hc2
        injection hc2 with h1 h2
        refine ⟨[], A, c2, rest, ?_, by simp, h2⟩
        rw [List.nil_append, hc1, ← h1]

/-! ### Master closed forms for `Scraper.scrape` -/

/-- The fresh state `scrape` starts from. -/
def initState (sc : Scraper) : SState :=
  { outcome := initOutcome sc.scrapers, attempts := [], cbCalls := [] }

theorem scrape_eq_runTiers (sc : Scraper)
    (fetch : ScraperFunction → Except Unit Bool)
    (pdfCheck : ScraperFunction → Bool) (cb : Option (Nat → Bool)) (i : Nat) :
    sc.scrape fetch pdfCheck cb i =
      runTiers fetch pdfCheck cb (sc.visitTiers i) (initState sc) :=
  rfl

theorem scrape_exhaust_form (sc : Scraper)
    (fetch : ScraperFunction → Except Unit Bool)
    (pdfCheck : ScraperFunction → Bool) (cb : Option (Nat → Bool)) (i : Nat)
    (hall : ∀ s ∈ (sc.visitTiers i).flatten, qualifiesB fetch pdfCheck s = false)
    (hcb : CbOk cb) :
    sc.scrape fetch pdfCheck cb i =
      (afterTiers cb (initState sc) (sc.visitTiers i), Except.ok false) := by
  rw [scrape_eq_runTiers]
  exact runTiers_exhaust fetch pdfCheck cb _ _ hall
    (fun f hf t _ => hcb f hf _)

theorem scrape_firstQual_form (sc : Scraper)
    (fetch : ScraperFunction → Except Unit Bool)
    (pdfCheck : ScraperFunction → Bool) (cb : Option (Nat → Bool)) (i : Nat)
    (A B : List ScraperFunction) (s0 : ScraperFunction)
    (hsplit : (sc.visitTiers i).flatten = A ++ s0 :: B)
    (hA : ∀ s ∈ A, qualifiesB fetch pdfCheck s = false)
    (h0 : qualifiesB fetch pdfCheck s0 = true)
    (hcb : CbOk cb) :
    ∃ T1 pre, A = T1.flatten ++ pre ∧
      sc.scrape fetch pdfCheck cb i =
        (succState cb (afterTiers cb (initState sc) T1) pre s0,
          Except.ok true) := by
  rcases flatten_split (sc.visitTiers i) A B s0 hsplit with
    ⟨T1, pre, post, T2, htiers, hA2, _⟩
  refine ⟨T1, pre, hA2, ?_⟩
  rw [scrape_eq_runTiers, htiers]
  exact runTiers_firstQual fetch pdfCheck cb T1 T2 pre post s0 _
    (fun s hs => hA s (by rw [hA2]; exact List.mem_append_left _ hs))
    (fun s hs => hA s (by rw [hA2]; exact List.mem_append_right _ hs))
    h0 (fun f hf t _ => hcb f hf _)

theorem tierSnapshots_no_success (m : OutcomeMap)
    (A : List (List ScraperFunction)) (snap : OutcomeMap)
    (hs : snap ∈ tierSnapshots m A) (k : String)
    (h : dictGet snap k = Option.some Status.success) :
    dictGet m k = Option.some Status.success := by
  induction A generalizing m with
  | nil => simp [tierSnapshots] at hs
  | cons t A ih =>
    simp only [tierSnapshots, List.mem_cons] at hs
    rcases hs with hs | hs
    · rw [hs] at h
      rcases dictGet_markConst_cases _ _ _ _ _ h with h1 | h1
      · exact absurd h1 (by simp)
      · exact h1
    · have := ih _ hs
      rcases dictGet_markConst_cases _ _ _ _ _ this with h1 | h1
      · exact absurd h1 (by simp)
      · exact h1

theorem tierSnapshots_getElem? (m : OutcomeMap)
    (A : List (List ScraperFunction)) (t : Nat) (ht : t < A.length) :
    (tierSnapshots m A)[t]? =
      Option.some (markConst Status.failed m (A.take (t + 1)).flatten) := by
  induction A generalizing m t with
  | nil => simp at ht
  | cons tr A ih =>
    cases t with
    | zero => simp [tierSnapshots]
    | succ t =>
      have ht2 : t < A.length := by simpa using Nat.lt_of_succ_lt_succ ht
      simp only [tierSnapshots, List.getElem?_cons_succ, ih _ t ht2,
        List.take_succ_cons, List.flatten_cons, markConst_append]

/-! ### Witness fixtures (shared concrete instances) -/

def funcW1 : Func := ⟨1, "alpha_scraper"⟩

def funcW2 : Func := ⟨2, "beta_scraper"⟩

def funcW3 : Func := ⟨3, "gamma_scraper"⟩

/-- A registry with strategies alpha(10), beta(10), gamma(5), mirroring the
spec scenario in §8. -/
def scW : Scraper :=
  (((Scraper.mk []).register_scraper funcW1 false 10 (Option.some "alpha")
      false).register_scraper funcW2 false 10 (Option.some "beta")
      false).register_scraper funcW3 false 5 (Option.some "gamma") false

/-- Fetch oracle: only gamma succeeds. -/
def fetchW : ScraperFunction → Except Unit Bool := fun s =>
  if s.name = "gamma" then Except.ok true else Except.ok false

/-- Fetch oracle: alpha raises, gamma succeeds. -/
def fetchWerr : ScraperFunction → Except Unit Bool := fun s =>
  if s.name = "alpha" then Except.error ()
  else if s.name = "gamma" then Except.ok true
  else Except.ok false

/-- Fetch oracle: everything fails. -/
def fetchWfail : ScraperFunction → Except Unit Bool := fun _ =>
  Except.ok false

/-! ### Claim theorems -/

/-- C10: calling `Scraper.scrape` on a scraper with no registered strategies
returns `False`, produces an empty outcome map, and never invokes the
reporter callback, for every record, path (oracles `fetch`, `pdfCheck`),
callback and rotation index. -/
theorem scrape_empty_registry (fetch : ScraperFunction → Except Unit Bool)
    (pdfCheck : ScraperFunction → Bool) (cb : Option (Nat → Bool)) (i : Nat) :
    (Scraper.mk []).scrape fetch pdfCheck cb i =
      ({ outcome := [], attempts := [], cbCalls := [] }, Except.ok false) :=
  rfl

/-- C6: for every registry state, the sum of the tier sizes of the execution
plan (`sorted_scrapers`) equals the number of registered strategies, and each
`register_scraper` call grows the strategy count by exactly one — so the
invariant holds after any sequence of registrations, duplicate names and
priorities included. -/
theorem plan_preserves_strategy_count (sc : Scraper) :
    ((sc.sorted_scrapers.map List.length).sum = sc.scrapers.length) ∧
    ∀ (func : Func) (a : Bool) (p : Int) (n : Option String) (c : Bool),
      (sc.register_scraper func a p n c).scrapers.length =
        sc.scrapers.length + 1 := by
  refine ⟨sorted_scrapers_sum_length sc, ?_⟩
  intro func a p n c
  unfold Scraper.register_scraper sortByPriorityDesc
  rw [(List.perm_insertionSort _ _).length_eq]
  simp

/-- C2: `Scraper.scrape` visits the priority tiers in strictly descending
priority order (its tier sequence is `sorted_scrapers` reversed, with each
tier rotated), and within a tier of size `n` the strategy visited at offset
`off` is the one at position `(i + off) % n` — ties inside a tier are broken
only by rotation, never by priority. -/
theorem scrape_tier_order (sc : Scraper) (i : Nat) :
    (sc.visitTiers i).Pairwise
      (fun t1 t2 => ∀ s1 ∈ t1, ∀ s2 ∈ t2, s2.priority < s1.priority) ∧
    sc.visitTiers i = sc.sorted_scrapers.reverse.map (rotatedTier i) ∧
    ∀ tier ∈ sc.sorted_scrapers, ∀ off, off < tier.length →
      (rotatedTier i tier)[off]? = tier[(i + off) % tier.length]? :=
  ⟨visitTiers_pairwise_desc sc i, rfl,
   fun tier _ off hoff => rotatedTier_getElem? i off tier hoff⟩

/-- Witness for C2 on the concrete registry `scW` with rotation index 1. -/
theorem scrape_tier_order_witness :
    (scW.visitTiers 1).Pairwise
      (fun t1 t2 => ∀ s1 ∈ t1, ∀ s2 ∈ t2, s2.priority < s1.priority) ∧
    (rotatedTier 1 (scW.sorted_scrapers.getD 1 []))[0]? =
      (scW.sorted_scrapers.getD 1 [])[(1 + 0) %
        (scW.sorted_scrapers.getD 1 []).length]? :=
  ⟨(scrape_tier_order scW 1).1,
   (scrape_tier_order scW 1).2.2 (scW.sorted_scrapers.getD 1 [])
     (by decide) 0 (by decide)⟩

/-- C7: rotation indices congruent modulo the tier size produce the identical
visit order for that tier; the starting strategy is the one at position
`r % n`, so incongruent indices start at different positions (and, when the
tier has no duplicate entries, at different strategies). -/
theorem rotation_mod_property (tier : List ScraperFunction) (r1 r2 : Nat)
    (hn : 0 < tier.length) :
    (r1 % tier.length = r2 % tier.length →
      rotatedTier r1 tier = rotatedTier r2 tier) ∧
    (∀ r, (rotatedTier r tier).head? = tier[r % tier.length]?) ∧
    (tier.Nodup → r1 % tier.length ≠ r2 % tier.length →
      (rotatedTier r1 tier).head? ≠ (rotatedTier r2 tier).head?) := by
  have hhead : ∀ r : Nat, (rotatedTier r tier).head? = tier[r % tier.length]? := by
    intro r
    rw [List.head?_eq_getElem?, rotatedTier_getElem? r 0 tier hn, Nat.add_zero]
  refine ⟨?_, hhead, ?_⟩
  · intro h
    rw [rotatedTier_eq_rotate, rotatedTier_eq_rotate, ← List.rotate_mod tier r1,
      ← List.rotate_mod tier r2, h]
  · intro hnd hne heq
    rw [hhead r1, hhead r2] at heq
    have h1 : r1 % tier.length < tier.length := Nat.mod_lt _ hn
    have h2 : r2 % tier.length < tier.length := Nat.mod_lt _ hn
    rw [List.getElem?_eq_getElem h1, List.getElem?_eq_getElem h2] at heq
    exact hne (hnd.getElem_inj_iff.mp (Option.some.inj heq))

/-- Witness for C7 on a two-element tier: indices 0 and 2 agree, 0 and 1
start at different strategies. -/
theorem rotation_mod_property_witness :
    (rotatedTier 0 (scW.sorted_scrapers.getD 1 []) =
      rotatedTier 2 (scW.sorted_scrapers.getD 1 [])) ∧
    (rotatedTier 0 (scW.sorted_scrapers.getD 1 [])).head? ≠
      (rotatedTier 1 (scW.sorted_scrapers.getD 1 [])).head? :=
  ⟨(rotation_mod_property (scW.sorted_scrapers.getD 1 []) 0 2
      (by decide)).1 (by decide),
   (rotation_mod_property (scW.sorted_scrapers.getD 1 []) 0 1
      (by decide)).2.2 (by decide) (by decide)⟩

/-- C4 counterexample: registering with the name argument missing (`None`)
and the default priority raises nothing — it succeeds immediately and stores
a strategy whose name is derived from the function's `__name__`.  No
`ConfigurationError` (or any other registration-time failure) exists in the
code. -/
theorem register_missing_name_no_error :
    ((Scraper.mk []).register_scraper (Func.mk 7 "foo_scraper") false 10
        Option.none true).scrapers =
      [{ function := Func.mk 7 "foo_scraper", priority := 10, name := "foo",
         check_pdf := true, has_session := false }] := by
  rfl

/-- C4 (amended): registering a strategy with a missing name (or relying on
the default priority) never fails at registration time: `register_scraper`
always succeeds, adds exactly one strategy, and derives its name as
`func.__name__.replace("_scraper", "")`. -/
theorem register_missing_fields_defaults (sc : Scraper) (func : Func)
    (a : Bool) (p : Int) (c : Bool) :
    List.Perm (sc.register_scraper func a p Option.none c).scrapers
      ({ function := func, priority := p,
         name := stripScraperSuffix func.pyName, check_pdf := c,
         has_session := a } :: sc.scrapers) := by
  unfold Scraper.register_scraper sortByPriorityDesc
  exact (List.perm_insertionSort _ _).trans List.perm_append_comm

/-- C5: if every registered strategy fails to qualify (falsy return, failed
validation, or a raised exception), `scrape` returns `False`, every strategy
is marked failed in the final outcome map, and (when a non-raising reporter
is present) the snapshot passed after each tier marks all of that tier's
strategies failed. -/
theorem scrape_exhaustion (sc : Scraper)
    (fetch : ScraperFunction → Except Unit Bool)
    (pdfCheck : ScraperFunction → Bool) (cb : Option (Nat → Bool)) (i : Nat)
    (hall : ∀ s ∈ sc.scrapers, qualifiesB fetch pdfCheck s = false)
    (hcb : CbOk cb) :
    (sc.scrape fetch pdfCheck cb i).2 = Except.ok false ∧
    (∀ s ∈ sc.scrapers,
      dictGet (sc.scrape fetch pdfCheck cb i).1.outcome s.name =
        Option.some Status.failed) ∧
    (cb.isSome →
      (sc.scrape fetch pdfCheck cb i).1.cbCalls.length =
        (sc.visitTiers i).length ∧
      ∀ (t : Nat) (tier : List ScraperFunction) (snap : OutcomeMap),
        (sc.visitTiers i)[t]? = Option.some tier →
        (sc.scrape fetch pdfCheck cb i).1.cbCalls[t]? = Option.some snap →
        ∀ s ∈ tier, dictGet snap s.name = Option.some Status.failed) := by
  have hallv : ∀ s ∈ (sc.visitTiers i).flatten,
      qualifiesB fetch pdfCheck s = false :=
    fun s hs => hall s ((visitTiers_flatten_perm sc i).subset hs)
  have hform := scrape_exhaust_form sc fetch pdfCheck cb i hallv hcb
  rw [hform]
  refine ⟨rfl, ?_, ?_⟩
  · intro s hs
    have hmem : s ∈ (sc.visitTiers i).flatten :=
      (visitTiers_flatten_perm sc i).mem_iff.mpr hs
    exact dictGet_markConst_mem _ _ _ _
      (List.mem_map.mpr ⟨s, hmem, rfl⟩)
  · intro hsome
    cases cb with
    | none => exact absurd hsome (by simp)
    | some f =>
      constructor
      · simp [afterTiers, initState, tierSnapshots_length]
      · intro t tier snap htier hsnap
        have ht : t < (sc.visitTiers i).length :=
          (List.getElem?_eq_some.mp htier).1
        have hsnap2 : snap = markConst Status.failed
            (initOutcome sc.scrapers) (((sc.visitTiers i).take (t + 1)).flatten) := by
          have := tierSnapshots_getElem? (initOutcome sc.scrapers)
            (sc.visitTiers i) t ht
          simp only [afterTiers, initState, List.nil_append] at hsnap
          rw [this] at hsnap
          exact (Option.some.inj hsnap).symm
        intro s hs
        have htier2 : tier ∈ (sc.visitTiers i).take (t + 1) := by
          have h2 : ((sc.visitTiers i).take (t + 1))[t]? = Option.some tier := by
            rw [List.getElem?_take]
            simp only [Nat.lt_succ_self, if_pos]
            exact htier
          exact List.getElem?_mem h2
        have hmem : s ∈ ((sc.visitTiers i).take (t + 1)).flatten :=
          List.mem_flatten.mpr ⟨tier, htier2, hs⟩
        rw [hsnap2]
        exact dictGet_markConst_mem _ _ _ _ (List.mem_map.mpr ⟨s, hmem, rfl⟩)

/-- The strategy records stored in `scW` (alpha and beta share priority 10,
gamma has priority 5). -/
def sfAlpha : ScraperFunction := ⟨funcW1, 10, "alpha", false, false⟩

def sfBeta : ScraperFunction := ⟨funcW2, 10, "beta", false, false⟩

def sfGamma : ScraperFunction := ⟨funcW3, 5, "gamma", false, false⟩

/-- Witness for C5: on `scW` every strategy returns falsy; `scrape` returns
`False`, all three strategies are marked failed, and both tier snapshots show
their tier failed. -/
theorem scrape_exhaustion_witness :
    (scW.scrape fetchWfail (fun _ => true) (Option.some (fun _ => false)) 0).2 =
      Except.ok false ∧
    (∀ s ∈ scW.scrapers,
      dictGet (scW.scrape fetchWfail (fun _ => true)
          (Option.some (fun _ => false)) 0).1.outcome s.name =
        Option.some Status.failed) ∧
    ((Option.some (fun _ : Nat => false)).isSome →
      (scW.scrape fetchWfail (fun _ => true)
          (Option.some (fun _ => false)) 0).1.cbCalls.length =
        (scW.visitTiers 0).length ∧
      ∀ (t : Nat) (tier : List ScraperFunction) (snap : OutcomeMap),
        (scW.visitTiers 0)[t]? = Option.some tier →
        (scW.scrape fetchWfail (fun _ => true)
            (Option.some (fun _ => false)) 0).1.cbCalls[t]? =
          Option.some snap →
        ∀ s ∈ tier, dictGet snap s.name = Option.some Status.failed) :=
  scrape_exhaustion scW fetchWfail (fun _ => true)
    (Option.some (fun _ => false)) 0 (by decide)
    (fun f hf k => by cases hf; rfl)

/-- C1: when the first qualifying strategy in visit order is `s0` (its fetch
returned truthy and either `check_pdf` is off or the validator approves),
`scrape` marks `s0` success, invokes the reporter (when present) exactly once
with the final outcome map as its last call, returns `True` immediately, and
invokes no strategy after `s0`. -/
theorem scrape_first_success (sc : Scraper)
    (fetch : ScraperFunction → Except Unit Bool)
    (pdfCheck : ScraperFunction → Bool) (cb : Option (Nat → Bool)) (i : Nat)
    (A B : List ScraperFunction) (s0 : ScraperFunction)
    (hsplit : (sc.visitTiers i).flatten = A ++ s0 :: B)
    (hA : ∀ s ∈ A, qualifiesB fetch pdfCheck s = false)
    (h0 : qualifiesB fetch pdfCheck s0 = true)
    (hcb : CbOk cb) :
    (sc.scrape fetch pdfCheck cb i).2 = Except.ok true ∧
    dictGet (sc.scrape fetch pdfCheck cb i).1.outcome s0.name =
      Option.some Status.success ∧
    (sc.scrape fetch pdfCheck cb i).1.attempts.map Prod.fst =
      (A ++ [s0]).map (fun s => s.name) ∧
    (cb.isSome →
      (sc.scrape fetch pdfCheck cb i).1.cbCalls.getLast? =
        Option.some (sc.scrape fetch pdfCheck cb i).1.outcome ∧
      (sc.scrape fetch pdfCheck cb i).1.cbCalls.count
        (sc.scrape fetch pdfCheck cb i).1.outcome = 1) := by
  rcases scrape_firstQual_form sc fetch pdfCheck cb i A B s0 hsplit hA h0 hcb
    with ⟨T1, pre, hA2, hform⟩
  rw [hform]
  refine ⟨rfl, dictGet_dictSet_self _ _ _, ?_, ?_⟩
  · simp [succState, afterTiers, initState, hA2, List.map_append,
      Function.comp_def]
  · intro hsome
    cases cb with
    | none => exact absurd hsome (by simp)
    | some f =>
      have hX : (succState (Option.some f)
          (afterTiers (Option.some f) (initState sc) T1) pre s0).cbCalls =
          tierSnapshots (initOutcome sc.scrapers) T1 ++
            [(succState (Option.some f)
              (afterTiers (Option.some f) (initState sc) T1) pre s0).outcome] := by
        simp [succState, afterTiers, initState]
      constructor
      · rw [hX]
        exact List.getLast?_concat _
      · rw [hX]
        rw [List.count_append]
        have hzero : (tierSnapshots (initOutcome sc.scrapers) T1).count
            ((succState (Option.some f)
              (afterTiers (Option.some f) (initState sc) T1) pre s0).outcome) = 0 := by
          apply List.count_eq_zero.mpr
          intro hmem
          have hsucc : dictGet ((succState (Option.some f)
              (afterTiers (Option.some f) (initState sc) T1) pre s0).outcome)
              s0.name = Option.some Status.success :=
            dictGet_dictSet_self _ _ _
          have := tierSnapshots_no_success (initOutcome sc.scrapers) T1 _
            hmem s0.name hsucc
          exact dictGet_initOutcome_not_success sc.scrapers s0.name this
        rw [hzero]
        simp

/-- Witness for C1: on `scW` with rotation 0, alpha and beta fail, gamma is
the first qualifying strategy. -/
theorem scrape_first_success_witness :
    (scW.scrape fetchW (fun _ => true) (Option.some (fun _ => false)) 0).2 =
      Except.ok true ∧
    dictGet (scW.scrape fetchW (fun _ => true)
        (Option.some (fun _ => false)) 0).1.outcome sfGamma.name =
      Option.some Status.success ∧
    (scW.scrape fetchW (fun _ => true)
        (Option.some (fun _ => false)) 0).1.attempts.map Prod.fst =
      ([sfAlpha, sfBeta] ++ [sfGamma]).map (fun s => s.name) ∧
    ((Option.some (fun _ : Nat => false)).isSome →
      (scW.scrape fetchW (fun _ => true)
          (Option.some (fun _ => false)) 0).1.cbCalls.getLast? =
        Option.some (scW.scrape fetchW (fun _ => true)
          (Option.some (fun _ => false)) 0).1.outcome ∧
      (scW.scrape fetchW (fun _ => true)
          (Option.some (fun _ => false)) 0).1.cbCalls.count
        (scW.scrape fetchW (fun _ => true)
          (Option.some (fun _ => false)) 0).1.outcome = 1) :=
  scrape_first_success scW fetchW (fun _ => true)
    (Option.some (fun _ => false)) 0 [sfAlpha, sfBeta] [] sfGamma
    (by decide) (by decide) (by decide) (fun f hf k => by cases hf; rfl)

theorem first_qual_split {α : Type} (P : α → Bool) (l : List α) :
    (∀ x ∈ l, P x = false) ∨
    ∃ pre x post, l = pre ++ x :: post ∧ (∀ y ∈ pre, P y = false) ∧
      P x = true := by
  induction l with
  | nil => exact Or.inl (by simp)
  | cons a l ih =>
    cases ha : P a with
    | true => exact Or.inr ⟨[], a, l, rfl, by simp, ha⟩
    | false =>
      rcases ih with h | ⟨pre, x, post, he, hpre, hx⟩
      · refine Or.inl ?_
        intro y hy
        rcases List.mem_cons.mp hy with h1 | h1
        · rw [h1]; exact ha
        · exact h y h1
      · refine Or.inr ⟨a :: pre, x, post, by rw [he]; rfl, ?_, hx⟩
        intro y hy
        rcases List.mem_cons.mp hy with h1 | h1
        · rw [h1]; exact ha
        · exact hpre y h1

theorem visitTiers_names_nodup (sc : Scraper) (i : Nat)
    (h : (sc.scrapers.map (fun s => s.name)).Nodup) :
    (((sc.visitTiers i).flatten).map (fun s => s.name)).Nodup :=
  ((visitTiers_flatten_perm sc i).map (fun s => s.name)).symm.nodup h

theorem succState_attempts_map_fst (cb : Option (Nat → Bool)) (st : SState)
    (pre : List ScraperFunction) (s0 : ScraperFunction) :
    (succState cb st pre s0).attempts.map Prod.fst =
      st.attempts.map Prod.fst ++ pre.map (fun s => s.name) ++ [s0.name] := by
  simp [succState, Function.comp_def]

theorem afterTiers_attempts_map_fst (cb : Option (Nat → Bool)) (st : SState)
    (tiers : List (List ScraperFunction)) :
    (afterTiers cb st tiers).attempts.map Prod.fst =
      st.attempts.map Prod.fst ++ tiers.flatten.map (fun s => s.name) := by
  simp [afterTiers, Function.comp_def]

/-- C3: a fetch capability that raises is recovered locally — assuming the
reporter itself does not raise and, as the spec's data model requires,
registered names are unique: the raising strategy (first non-qualifying
prefix `A`, then `s`) is marked failed in the final outcome map, the
traversal continues with the next strategy in rotated tier order, and no
exception propagates out of `scrape`. -/
theorem scrape_fault_recovered (sc : Scraper)
    (fetch : ScraperFunction → Except Unit Bool)
    (pdfCheck : ScraperFunction → Bool) (cb : Option (Nat → Bool)) (i : Nat)
    (A B : List ScraperFunction) (s : ScraperFunction)
    (hnames : (sc.scrapers.map (fun x => x.name)).Nodup)
    (hsplit : (sc.visitTiers i).flatten = A ++ s :: B)
    (hA : ∀ a ∈ A, qualifiesB fetch pdfCheck a = false)
    (herr : fetch s = Except.error ())
    (hcb : CbOk cb) :
    (∃ b, (sc.scrape fetch pdfCheck cb i).2 = Except.ok b) ∧
    dictGet (sc.scrape fetch pdfCheck cb i).1.outcome s.name =
      Option.some Status.failed ∧
    ((sc.scrape fetch pdfCheck cb i).1.attempts.map Prod.fst).take
        (A.length + 1) = (A ++ [s]).map (fun x => x.name) ∧
    (B ≠ [] →
      A.length + 1 < (sc.scrape fetch pdfCheck cb i).1.attempts.length) := by
  have hsq : qualifiesB fetch pdfCheck s = false := by
    unfold qualifiesB
    rw [herr]
  rcases first_qual_split (qualifiesB fetch pdfCheck) B with
    hBfail | ⟨pre, s0, post, hB, hpre, hs0⟩
  · -- no qualifying strategy anywhere: exhaustion closed form
    have hallv : ∀ x ∈ (sc.visitTiers i).flatten,
        qualifiesB fetch pdfCheck x = false := by
      intro x hx
      rw [hsplit] at hx
      rcases List.mem_append.mp hx with h1 | h1
      · exact hA x h1
      · rcases List.mem_cons.mp h1 with h2 | h2
        · rw [h2]; exact hsq
        · exact hBfail x h2
    rw [scrape_exhaust_form sc fetch pdfCheck cb i hallv hcb]
    refine ⟨⟨false, rfl⟩, ?_, ?_, ?_⟩
    · exact dictGet_markConst_mem _ _ _ _
        (List.mem_map.mpr ⟨s, by rw [hsplit]; simp, rfl⟩)
    · rw [afterTiers_attempts_map_fst, hsplit, List.append_cons A s B]
      simp only [initState, List.map_nil, List.nil_append, List.map_append]
      exact List.take_left' (by simp)
    · intro hBne
      simp only [afterTiers, initState, List.nil_append, List.length_append,
        List.length_map, hsplit, List.length_cons]
      have : 0 < B.length := List.length_pos.mpr hBne
      simp
      omega
  · -- a later strategy qualifies: first-success closed form past `s`
    have hsplit2 : (sc.visitTiers i).flatten = (A ++ s :: pre) ++ s0 :: post := by
      rw [hsplit, hB]
      simp
    have hA2 : ∀ x ∈ A ++ s :: pre, qualifiesB fetch pdfCheck x = false := by
      intro x hx
      rcases List.mem_append.mp hx with h1 | h1
      · exact hA x h1
      · rcases List.mem_cons.mp h1 with h2 | h2
        · rw [h2]; exact hsq
        · exact hpre x h2
    rcases scrape_firstQual_form sc fetch pdfCheck cb i (A ++ s :: pre) post
      s0 hsplit2 hA2 hs0 hcb with ⟨T1, pre2, hA22, hform⟩
    have hne : s.name ≠ s0.name := by
      have hnd := visitTiers_names_nodup sc i hnames
      rw [hsplit2, List.map_append, List.map_cons] at hnd
      have hdisj := List.disjoint_of_nodup_append hnd
      intro hc
      exact hdisj (List.mem_map.mpr ⟨s, by simp, rfl⟩)
        (by rw [hc]; exact List.mem_cons_self _ _)
    rw [hform]
    refine ⟨⟨true, rfl⟩, ?_, ?_, ?_⟩
    · show dictGet (succState cb (afterTiers cb (initState sc) T1) pre2
        s0).outcome s.name = Option.some Status.failed
      have houtcome : (succState cb (afterTiers cb (initState sc) T1) pre2
          s0).outcome = dictSet (markConst Status.failed
            (initOutcome sc.scrapers) (T1.flatten ++ pre2)) s0.name
            Status.success := by
        simp [succState, afterTiers, initState, markConst_append]
      rw [houtcome, dictGet_dictSet_ne _ _ _ _ hne, ← hA22]
      exact dictGet_markConst_mem _ _ _ _
        (List.mem_map.mpr ⟨s, by simp, rfl⟩)
    · rw [succState_attempts_map_fst, afterTiers_attempts_map_fst]
      simp only [initState, List.map_nil, List.nil_append, ← List.map_append]
      rw [← hA22, List.append_cons A s pre, List.map_append, List.map_append,
        List.append_assoc]
      exact List.take_left' (by simp)
    · intro _
      have hlen := congrArg List.length hA22
      simp only [List.length_append, List.length_cons] at hlen
      simp only [succState, afterTiers, initState, List.nil_append,
        List.length_append, List.length_map, List.length_cons]
      omega

/-- Witness for C3: on `scW`, alpha raises; it is marked failed, beta and
gamma are still attempted, and no exception escapes. -/
theorem scrape_fault_recovered_witness :
    (∃ b, (scW.scrape fetchWerr (fun _ => true)
        (Option.some (fun _ => false)) 0).2 = Except.ok b) ∧
    dictGet (scW.scrape fetchWerr (fun _ => true)
        (Option.some (fun _ => false)) 0).1.outcome sfAlpha.name =
      Option.some Status.failed ∧
    ((scW.scrape fetchWerr (fun _ => true)
        (Option.some (fun _ => false)) 0).1.attempts.map Prod.fst).take
        (([] : List ScraperFunction).length + 1) =
      (([] : List ScraperFunction) ++ [sfAlpha]).map (fun x => x.name) ∧
    ([sfBeta, sfGamma] ≠ ([] : List ScraperFunction) →
      ([] : List ScraperFunction).length + 1 <
        (scW.scrape fetchWerr (fun _ => true)
          (Option.some (fun _ => false)) 0).1.attempts.length) :=
  scrape_fault_recovered scW fetchWerr (fun _ => true)
    (Option.some (fun _ => false)) 0 [] [sfBeta, sfGamma] sfAlpha
    (by decide) (by decide) (by decide) (by rfl)
    (fun f hf k => by cases hf; rfl)

/-- C9: when the reporter raises during the success path — the callback
oracle raises exactly at invocation index `T1.length`, which is the call made
for the first qualifying strategy `s0` — the success is lost: `s0` ends up
marked failed, `scrape` does not return `True` (with nothing else qualifying
it exhausts and returns `False`), and traversal continues through all
remaining strategies. -/
theorem scrape_reporter_raise_loses_success (sc : Scraper)
    (fetch : ScraperFunction → Except Unit Bool)
    (pdfCheck : ScraperFunction → Bool) (i : Nat)
    (T1 : List (List ScraperFunction)) (pre post : List ScraperFunction)
    (s0 : ScraperFunction) (T2 : List (List ScraperFunction)) (f : Nat → Bool)
    (htiers : sc.visitTiers i = T1 ++ (pre ++ s0 :: post) :: T2)
    (hpre : ∀ s ∈ T1.flatten ++ pre, qualifiesB fetch pdfCheck s = false)
    (h0 : qualifiesB fetch pdfCheck s0 = true)
    (hrest : ∀ s ∈ post ++ T2.flatten, qualifiesB fetch pdfCheck s = false)
    (hnames : (sc.scrapers.map (fun x => x.name)).Nodup)
    (hf : ∀ k, f k = decide (k = T1.length)) :
    (sc.scrape fetch pdfCheck (Option.some f) i).2 = Except.ok false ∧
    dictGet (sc.scrape fetch pdfCheck (Option.some f) i).1.outcome s0.name =
      Option.some Status.failed ∧
    (sc.scrape fetch pdfCheck (Option.some f) i).1.attempts.map Prod.fst =
      ((sc.visitTiers i).flatten).map (fun x => x.name) ∧
    (∀ ab ∈ (sc.scrape fetch pdfCheck (Option.some f) i).1.attempts,
      ab.2 = false) := by
  have hT1len : (initState sc).cbCalls.length = 0 := rfl
  have hstep1 := runTiers_failPrefix fetch pdfCheck (Option.some f) T1
    ((pre ++ s0 :: post) :: T2) (initState sc)
    (fun s hs => hpre s (List.mem_append_left _ hs))
    (by
      intro g hg t ht
      cases hg
      rw [hT1len, Nat.zero_add, hf]
      simp only [decide_eq_false_iff_not]
      omega)
  have hstAlen : (afterTiers (Option.some f) (initState sc) T1).cbCalls.length =
      T1.length := by
    simp [afterTiers, initState, tierSnapshots_length]
  have hrs : runStrategies fetch pdfCheck (Option.some f) (pre ++ s0 :: post)
      (afterTiers (Option.some f) (initState sc) T1) =
      (failState (cbRaiseState (afterTiers (Option.some f) (initState sc) T1)
        pre s0) post, false) := by
    rw [runStrategies_qualRaise fetch pdfCheck f pre post s0 _
      (fun s hs => hpre s (List.mem_append_right _ hs)) h0
      (by rw [hstAlen, hf]; simp)]
    exact runStrategies_allFail fetch pdfCheck (Option.some f) post _
      (fun s hs => hrest s (List.mem_append_left _ hs))
  have hst2len : (failState (cbRaiseState
      (afterTiers (Option.some f) (initState sc) T1) pre s0)
        post).cbCalls.length = T1.length + 1 := by
    simp [failState, cbRaiseState, hstAlen]
  have hstep3 := runTiers_cons_false_some_ok fetch pdfCheck f
    (pre ++ s0 :: post) T2 (afterTiers (Option.some f) (initState sc) T1) _
    hrs (by rw [hst2len, hf]; simp)
  have hstep4 := runTiers_exhaust fetch pdfCheck (Option.some f) T2
    ({ failState (cbRaiseState (afterTiers (Option.some f) (initState sc) T1)
        pre s0) post with
      cbCalls := (failState (cbRaiseState
        (afterTiers (Option.some f) (initState sc) T1) pre s0) post).cbCalls ++
        [(failState (cbRaiseState
          (afterTiers (Option.some f) (initState sc) T1) pre s0)
            post).outcome] })
    (fun s hs => hrest s (List.mem_append_right _ hs))
    (by
      intro g hg t ht
      cases hg
      simp only [List.length_append, List.length_cons, List.length_nil,
        hst2len, hf, decide_eq_false_iff_not]
      omega)
  have hfinal : sc.scrape fetch pdfCheck (Option.some f) i =
      (afterTiers (Option.some f)
        ({ failState (cbRaiseState
            (afterTiers (Option.some f) (initState sc) T1) pre s0) post with
          cbCalls := (failState (cbRaiseState
            (afterTiers (Option.some f) (initState sc) T1) pre s0)
              post).cbCalls ++
            [(failState (cbRaiseState
              (afterTiers (Option.some f) (initState sc) T1) pre s0)
                post).outcome] }) T2, Except.ok false) := by
    rw [scrape_eq_runTiers, htiers, hstep1, hstep3, hstep4]
  have hexp : ((sc.visitTiers i).flatten).map (fun x => x.name) =
      ((T1.flatten ++ pre).map (fun x => x.name)) ++
        s0.name :: ((post ++ T2.flatten).map (fun x => x.name)) := by
    rw [htiers]
    simp [List.flatten_append, List.flatten_cons, List.map_append,
      List.append_assoc]
  have hs0Z : s0.name ∉ (post ++ T2.flatten).map (fun x => x.name) := by
    have hnd := visitTiers_names_nodup sc i hnames
    rw [hexp] at hnd
    have hnd3 := (List.nodup_append.mp hnd).2.1
    exact (List.nodup_cons.mp hnd3).1
  rw [hfinal]
  refine ⟨rfl, ?_, ?_, ?_⟩
  · have hout : (afterTiers (Option.some f)
        ({ failState (cbRaiseState
            (afterTiers (Option.some f) (initState sc) T1) pre s0) post with
          cbCalls := (failState (cbRaiseState
            (afterTiers (Option.some f) (initState sc) T1) pre s0)
              post).cbCalls ++
            [(failState (cbRaiseState
              (afterTiers (Option.some f) (initState sc) T1) pre s0)
                post).outcome] }) T2).outcome =
        markConst Status.failed
          ((cbRaiseState (afterTiers (Option.some f) (initState sc) T1)
            pre s0).outcome) (post ++ T2.flatten) := by
      simp [afterTiers, failState, markConst_append]
    rw [hout, dictGet_markConst_not_mem _ _ _ _ hs0Z]
    exact dictGet_dictSet_self _ _ _
  · rw [htiers]
    simp [afterTiers, failState, cbRaiseState, initState, Function.comp_def,
      List.flatten_append, List.flatten_cons, List.map_append,
      List.append_assoc]
  · intro ab hab
    simp only [afterTiers, failState, cbRaiseState, initState,
      List.nil_append, List.mem_append, List.mem_map, List.mem_cons,
      List.mem_singleton] at hab
    aesop

/-- Fetch oracle: only alpha succeeds. -/
def fetchWalpha : ScraperFunction → Except Unit Bool := fun s =>
  if s.name = "alpha" then Except.ok true else Except.ok false

/-- Witness for C9: alpha qualifies but the reporter raises on the success
invocation (index 0); `scrape` returns `False`, alpha is marked failed, and
beta and gamma are still attempted. -/
theorem scrape_reporter_raise_loses_success_witness :
    (scW.scrape fetchWalpha (fun _ => true)
        (Option.some (fun k => decide (k = 0))) 0).2 = Except.ok false ∧
    dictGet (scW.scrape fetchWalpha (fun _ => true)
        (Option.some (fun k => decide (k = 0))) 0).1.outcome sfAlpha.name =
      Option.some Status.failed ∧
    (scW.scrape fetchWalpha (fun _ => true)
        (Option.some (fun k => decide (k = 0))) 0).1.attempts.map Prod.fst =
      ((scW.visitTiers 0).flatten).map (fun x => x.name) ∧
    (∀ ab ∈ (scW.scrape fetchWalpha (fun _ => true)
        (Option.some (fun k => decide (k = 0))) 0).1.attempts,
      ab.2 = false) :=
  scrape_reporter_raise_loses_success scW fetchWalpha (fun _ => true) 0
    [] [] [sfBeta] sfAlpha [[sfGamma]] (fun k => decide (k = 0))
    (by decide) (by decide) (by decide) (by decide) (by decide)
    (fun k => rfl)

/-! ### Batch-scheduler lemmas -/

theorem scrapeParse_cbNone_ok (sc : Scraper)
    (fetch : Paper → ScraperFunction → Except Unit Bool)
    (pdfCheck : Paper → ScraperFunction → Bool) (dir : String)
    (pp : Paper → Paper) (p : Paper) (i : Nat) :
    ∃ o, scrapeParse sc fetch pdfCheck Option.none dir pp p i =
      Except.ok o := by
  rcases runTiers_cbNone_ok (fetch p) (pdfCheck p) (sc.visitTiers i)
    (initState sc) with ⟨b, hb⟩
  have hb2 : (sc.scrape (fetch p) (pdfCheck p)
      ((Option.none : Option (Paper → Nat → Bool)).map (fun f => f p)) i).2 =
      Except.ok b := hb
  unfold scrapeParse
  rw [hb2]
  cases b with
  | false => exact ⟨Option.none, rfl⟩
  | true => exact ⟨Option.some (dir ++ "/" ++ p.paperId ++ ".pdf", pp p), rfl⟩

theorem windowOuts_cbNone_no_err (sc : Scraper)
    (fetch : Paper → ScraperFunction → Except Unit Bool)
    (pdfCheck : Paper → ScraperFunction → Bool) (dir : String)
    (pp : Paper → Paper) (i : Nat) (window : List Paper) :
    (windowOuts sc fetch pdfCheck Option.none dir pp i window).any isErr =
      false := by
  rw [List.any_eq_false]
  intro r hr
  rcases List.mem_map.mp hr with ⟨jp, _, hjp⟩
  rcases scrapeParse_cbNone_ok sc fetch pdfCheck dir pp jp.2 (i + jp.1) with
    ⟨o, ho⟩
  rw [← hjp, ho]
  simp [isErr]

theorem windowAgg_length (agg : List (String × Paper))
    (outs : List (Except Unit (Option (String × Paper)))) :
    (windowAgg agg outs).length ≤ agg.length + outs.length := by
  induction outs generalizing agg with
  | nil => simp [windowAgg]
  | cons r outs ih =>
    rcases r with e | o
    · have hstep : windowAgg agg (Except.error e :: outs) =
          windowAgg agg outs := rfl
      rw [hstep]
      have := ih agg
      simp only [List.length_cons]
      omega
    · rcases o with _ | kv
      · have hstep : windowAgg agg (Except.ok Option.none :: outs) =
            windowAgg agg outs := rfl
        rw [hstep]
        have := ih agg
        simp only [List.length_cons]
        omega
      · have hstep : windowAgg agg (Except.ok (Option.some kv) :: outs) =
            windowAgg (dictSet agg kv.1 kv.2) outs := rfl
        rw [hstep]
        have h1 := ih (dictSet agg kv.1 kv.2)
        have h2 := dictSet_length_le agg kv.1 kv.2
        simp only [List.length_cons]
        omega

theorem limitReached_false (limit : Option Nat) (k : Nat)
    (h : limitReached limit k = false) (L : Nat)
    (hL : limit = Option.some L) : k < L := by
  rw [hL] at h
  unfold limitReached at h
  simpa using h

theorem limitReached_true (limit : Option Nat) (k : Nat)
    (h : limitReached limit k = true) :
    ∃ L, limit = Option.some L ∧ L ≤ k := by
  cases limit with
  | none => exact absurd h (by simp [limitReached])
  | some L =>
    refine ⟨L, rfl, ?_⟩
    unfold limitReached at h
    simpa using h

theorem enum_map_comp_fst {β : Type} (g : Nat → β) (l : List Paper) :
    l.enum.map (fun jp => g jp.1) = (List.range l.length).map g := by
  have hcomp : (fun jp : Nat × Paper => g jp.1) = g ∘ Prod.fst := rfl
  rw [hcomp, ← List.map_map, List.enum_map_fst]

theorem enum_trace_map_snd (i : Nat) (window : List Paper) :
    (window.enum.map (fun jp => (jp.2, i + jp.1))).map Prod.snd =
      (List.range window.length).map (fun k => i + k) := by
  rw [List.map_map]
  exact enum_map_comp_fst (fun k => i + k) window

theorem enum_trace_map_fst (i : Nat) (window : List Paper) :
    (window.enum.map (fun jp => (jp.2, i + jp.1))).map Prod.fst = window := by
  rw [List.map_map]
  exact List.enum_map_snd window

theorem batchGo_nil (sc : Scraper)
    (fetch : Paper → ScraperFunction → Except Unit Bool)
    (pdfCheck : Paper → ScraperFunction → Bool)
    (cb : Option (Paper → Nat → Bool)) (dir : String) (pp : Paper → Paper)
    (b : Nat) (limit : Option Nat) (i : Nat) (agg : List (String × Paper)) :
    batchGo sc fetch pdfCheck cb dir pp b limit i [] agg =
      Except.ok { aggregated := agg, launched := [], windowSizes := [] } := by
  rw [batchGo]

theorem batchGo_cons (sc : Scraper)
    (fetch : Paper → ScraperFunction → Except Unit Bool)
    (pdfCheck : Paper → ScraperFunction → Bool)
    (cb : Option (Paper → Nat → Bool)) (dir : String) (pp : Paper → Paper)
    (b : Nat) (limit : Option Nat) (i : Nat) (p : Paper) (ps : List Paper)
    (agg : List (String × Paper)) (window : List Paper)
    (outs : List (Except Unit (Option (String × Paper))))
    (agg2 : List (String × Paper))
    (hw : window = (p :: ps).take (b + 1))
    (ho : outs = windowOuts sc fetch pdfCheck cb dir pp i window)
    (ha : agg2 = windowAgg agg outs) :
    batchGo sc fetch pdfCheck cb dir pp b limit i (p :: ps) agg =
      (if outs.any isErr then Except.error ()
       else if limitReached limit agg2.length then
         Except.ok { aggregated := agg2,
                     launched := window.enum.map (fun jp => (jp.2, i + jp.1)),
                     windowSizes := [agg2.length] }
       else
         match batchGo sc fetch pdfCheck cb dir pp b limit (i + (b + 1))
             (ps.drop b) agg2 with
         | Except.error e => Except.error e
         | Except.ok t =>
             Except.ok { aggregated := t.aggregated,
                         launched := window.enum.map
                           (fun jp => (jp.2, i + jp.1)) ++ t.launched,
                         windowSizes := agg2.length :: t.windowSizes }) := by
  subst hw ho ha
  rw [batchGo]

theorem mem_dropLast_cons {α : Type} (a x : α) (l : List α)
    (h : x ∈ (a :: l).dropLast) : x = a ∨ x ∈ l.dropLast := by
  cases l with
  | nil => simp at h
  | cons b l =>
    rw [List.dropLast_cons₂] at h
    rcases List.mem_cons.mp h with h1 | h1
    · exact Or.inl h1
    · exact Or.inr h1

theorem batchGo_spec (sc : Scraper)
    (fetch : Paper → ScraperFunction → Except Unit Bool)
    (pdfCheck : Paper → ScraperFunction → Bool) (dir : String)
    (pp : Paper → Paper) (b : Nat) (limit : Option Nat) :
    ∀ (n : Nat) (papers : List Paper), papers.length ≤ n →
    ∀ (i : Nat) (agg : List (String × Paper)),
    ∃ t, batchGo sc fetch pdfCheck Option.none dir pp b limit i papers agg =
        Except.ok t ∧
      t.launched.map Prod.snd =
        (List.range t.launched.length).map (fun k => i + k) ∧
      t.launched.map Prod.fst = papers.take t.launched.length ∧
      t.aggregated.length ≤ agg.length + t.launched.length ∧
      (∀ L, limit = Option.some L → ∀ x ∈ t.windowSizes.dropLast, x < L) ∧
      (t.launched.length < papers.length →
        ((b + 1) ∣ t.launched.length ∧
          ∃ L, limit = Option.some L ∧ L ≤ t.aggregated.length)) := by
  intro n
  induction n with
  | zero =>
    intro papers hlen i agg
    have hnil : papers = [] := List.length_eq_zero.mp (Nat.le_zero.mp hlen)
    subst hnil
    refine ⟨_, batchGo_nil sc fetch pdfCheck Option.none dir pp b limit i agg,
      by simp, by simp, by simp, by simp, by simp⟩
  | succ n ihn =>
    intro papers hlen i agg
    cases papers with
    | nil =>
      refine ⟨_, batchGo_nil sc fetch pdfCheck Option.none dir pp b limit i agg,
        by simp, by simp, by simp, by simp, by simp⟩
    | cons p ps =>
      have hnoerr : (windowOuts sc fetch pdfCheck Option.none dir pp i
          ((p :: ps).take (b + 1))).any isErr = false :=
        windowOuts_cbNone_no_err sc fetch pdfCheck dir pp i _
      have hcons := batchGo_cons sc fetch pdfCheck Option.none dir pp b limit
        i p ps agg ((p :: ps).take (b + 1))
        (windowOuts sc fetch pdfCheck Option.none dir pp i
          ((p :: ps).take (b + 1)))
        (windowAgg agg (windowOuts sc fetch pdfCheck Option.none dir pp i
          ((p :: ps).take (b + 1)))) rfl rfl rfl
      rw [hnoerr] at hcons
      simp only [Bool.false_eq_true, if_false] at hcons
      have hwle1 : ((p :: ps).take (b + 1)).length ≤ b + 1 := by
        rw [List.length_take]
        exact Nat.min_le_left _ _
      have hwfull : b + 1 ≤ (p :: ps).length →
          ((p :: ps).take (b + 1)).length = b + 1 := by
        intro hk
        rw [List.length_take]
        exact Nat.min_eq_left hk
      have hwall : (p :: ps).length ≤ b + 1 →
          ((p :: ps).take (b + 1)).length = (p :: ps).length := by
        intro hk
        rw [List.length_take]
        exact Nat.min_eq_right hk
      have houtslen : (windowOuts sc fetch pdfCheck Option.none dir pp i
          ((p :: ps).take (b + 1))).length =
          ((p :: ps).take (b + 1)).length := by
        simp [windowOuts]
      have htrlen : (((p :: ps).take (b + 1)).enum.map
          (fun jp => (jp.2, i + jp.1))).length =
          ((p :: ps).take (b + 1)).length := by
        simp
      have htakewin : (p :: ps).take ((p :: ps).take (b + 1)).length =
          (p :: ps).take (b + 1) := by
        have h3 : ((p :: ps).take (b + 1)).take
            ((p :: ps).take (b + 1)).length = (p :: ps).take
              (min ((p :: ps).take (b + 1)).length (b + 1)) :=
          List.take_take _ _ _
        rw [List.take_length, Nat.min_eq_left hwle1] at h3
        exact h3.symm
      cases hlim : limitReached limit
          (windowAgg agg (windowOuts sc fetch pdfCheck Option.none dir pp i
            ((p :: ps).take (b + 1)))).length with
      | true =>
        rw [hlim] at hcons
        simp only [if_true] at hcons
        refine ⟨_, hcons, ?_, ?_, ?_, ?_, ?_⟩
        · rw [enum_trace_map_snd, htrlen]
        · rw [enum_trace_map_fst, htrlen, htakewin]
        · rw [htrlen, ← houtslen]
          exact windowAgg_length agg _
        · intro L hL x hx
          simp at hx
        · intro hlt
          rw [htrlen] at hlt ⊢
          have hfull : ((p :: ps).take (b + 1)).length = b + 1 := by
            by_cases hk : b + 1 ≤ (p :: ps).length
            · exact hwfull hk
            · have := hwall (by omega)
              omega
          refine ⟨?_, limitReached_true limit _ hlim⟩
          rw [hfull]
      | false =>
        rw [hlim] at hcons
        simp only [Bool.false_eq_true, if_false] at hcons
        have hdroplen : (ps.drop b).length ≤ n := by
          simp only [List.length_cons] at hlen
          simp only [List.length_drop]
          omega
        rcases ihn (ps.drop b) hdroplen (i + (b + 1))
            (windowAgg agg (windowOuts sc fetch pdfCheck Option.none dir pp i
              ((p :: ps).take (b + 1)))) with
          ⟨t2, ht2eq, ht2snd, ht2fst, ht2agg, ht2ws, ht2stop⟩
        rw [ht2eq] at hcons
        refine ⟨_, hcons, ?_, ?_, ?_, ?_, ?_⟩
        · -- rotation indices are consecutive from i
          simp only [List.map_append, List.length_append, htrlen]
          rw [enum_trace_map_snd, ht2snd, List.range_add, List.map_append,
            List.map_map]
          congr 1
          apply List.map_congr_left
          intro k hk
          simp only [Function.comp_apply]
          by_cases hall : (p :: ps).length ≤ b + 1
          · have hdnil : ps.drop b = [] := by
              rw [List.drop_eq_nil_iff_le]
              simp only [List.length_cons] at hall
              omega
            rw [hdnil] at ht2fst
            have hn2 : t2.launched.length = 0 := by
              have := congrArg List.length ht2fst
              simpa using this
            rw [hn2] at hk
            simp at hk
          · have hfull := hwfull (by omega)
            rw [hfull]
            omega
        · -- records processed are a prefix of the input, in order
          simp only [List.map_append, List.length_append, htrlen]
          rw [enum_trace_map_fst, ht2fst]
          have hdrop : ps.drop b = (p :: ps).drop (b + 1) := rfl
          by_cases hall : (p :: ps).length ≤ b + 1
          · have hdnil : ps.drop b = [] := by
              rw [List.drop_eq_nil_iff_le]
              simp only [List.length_cons] at hall
              omega
            rw [hdnil]
            simp only [List.take_nil, List.append_nil]
            have hwl : (p :: ps).take (b + 1) = p :: ps :=
              List.take_of_length_le hall
            have hlen3 : (p :: ps).length ≤
                ((p :: ps).take (b + 1)).length + t2.launched.length := by
              rw [hwall hall]
              omega
            rw [List.take_of_length_le hlen3, hwl]
          · rw [hdrop, ← List.take_add]
            have hfull := hwfull (by omega)
            rw [hfull]
        · -- result size bounded by number of launched orchestrations
          simp only [List.length_append, htrlen]
          have h1 := windowAgg_length agg (windowOuts sc fetch pdfCheck
            Option.none dir pp i ((p :: ps).take (b + 1)))
          rw [houtslen] at h1
          omega
        · -- every pre-final window size is below the limit
          intro L hL x hx
          rcases mem_dropLast_cons _ _ _ hx with h1 | h1
          · rw [h1]
            exact limitReached_false limit _ hlim L hL
          · exact ht2ws L hL x h1
        · -- an early stop happens only at a window boundary with the limit met
          intro hlt
          simp only [List.length_append, htrlen] at hlt ⊢
          by_cases hall : (p :: ps).length ≤ b + 1
          · have hdnil : ps.drop b = [] := by
              rw [List.drop_eq_nil_iff_le]
              simp only [List.length_cons] at hall
              omega
            rw [hdnil] at ht2fst
            have hn2 : t2.launched.length = 0 := by
              have := congrArg List.length ht2fst
              simpa using this
            have := hwall hall
            omega
          · have hfull := hwfull (by omega)
            have hlen2 : (p :: ps).length = (b + 1) + (ps.drop b).length := by
              simp only [List.length_cons, List.length_drop]
              simp only [not_le, List.length_cons] at hall
              omega
            rw [hfull] at hlt
            have hlt2 : t2.launched.length < (ps.drop b).length := by
              omega
            rcases ht2stop hlt2 with ⟨hdvd, L, hL, hLe⟩
            refine ⟨?_, L, hL, hLe⟩
            rw [hfull]
            exact Nat.dvd_add (Nat.dvd_refl _) hdvd

/-- C8: with a positive `batch_size` and no reporter, `batch_scrape`
processes records in consecutive windows of `batch_size`: the k-th launched
orchestration is for the k-th input record and receives rotation index `k`
(its global position in the input sequence); after a window, once `limit` is
reached, no further window is started (every window size recorded before the
final one is below the limit, and stopping before the end of the input
implies the stop was at a window boundary with the limit reached); and the
result size never exceeds the number of records processed. -/
theorem batch_scrape_windows (sc : Scraper)
    (fetch : Paper → ScraperFunction → Except Unit Bool)
    (pdfCheck : Paper → ScraperFunction → Bool) (dir : String)
    (pp : Paper → Paper) (papers : List Paper) (bs : Nat)
    (limit : Option Nat) (hbs : bs ≠ 0) :
    ∃ t, sc.batch_scrape fetch pdfCheck Option.none dir pp papers bs limit =
        Except.ok t ∧
      t.launched.map Prod.snd = List.range t.launched.length ∧
      t.launched.map Prod.fst = papers.take t.launched.length ∧
      t.aggregated.length ≤ t.launched.length ∧
      (∀ L, limit = Option.some L → ∀ x ∈ t.windowSizes.dropLast, x < L) ∧
      (t.launched.length < papers.length →
        (bs ∣ t.launched.length ∧
          ∃ L, limit = Option.some L ∧ L ≤ t.aggregated.length)) := by
  cases bs with
  | zero => exact absurd rfl hbs
  | succ b =>
    rcases batchGo_spec sc fetch pdfCheck dir pp b limit papers.length papers
      (Nat.le_refl _) 0 [] with ⟨t, heq, hsnd, hfst, hagg, hws, hstop⟩
    refine ⟨t, ?_, ?_, hfst, ?_, hws, hstop⟩
    · show batchGo sc fetch pdfCheck Option.none dir pp b limit 0 papers [] =
        Except.ok t
      exact heq
    · rw [hsnd]
      simp
    · simpa using hagg

/-- The single-strategy registry used by the batch witness. -/
def scOneW : Scraper :=
  (Scraper.mk []).register_scraper funcW1 false 10 (Option.some "solo") false

/-- Five records, mirroring the spec scenario (batch of 5, batch_size 2,
limit 3). -/
def papersW : List Paper :=
  [⟨"p0", "t0"⟩, ⟨"p1", "t1"⟩, ⟨"p2", "t2"⟩, ⟨"p3", "t3"⟩, ⟨"p4", "t4"⟩]

/-- Witness for C8: every record succeeds, batch_size 2, limit 3 — the
scheduler launches windows [0,1] and [2,3], then stops. -/
theorem batch_scrape_windows_witness :
    ∃ t, scOneW.batch_scrape (fun _ _ => Except.ok true) (fun _ _ => true)
        Option.none "dir" id papersW 2 (Option.some 3) = Except.ok t ∧
      t.launched.map Prod.snd = List.range t.launched.length ∧
      t.launched.map Prod.fst = papersW.take t.launched.length ∧
      t.aggregated.length ≤ t.launched.length ∧
      (∀ L, (Option.some 3 : Option Nat) = Option.some L →
        ∀ x ∈ t.windowSizes.dropLast, x < L) ∧
      (t.launched.length < papersW.length →
        (2 ∣ t.launched.length ∧
          ∃ L, (Option.some 3 : Option Nat) = Option.some L ∧
            L ≤ t.aggregated.length)) :=
  batch_scrape_windows scOneW (fun _ _ => Except.ok true) (fun _ _ => true)
    "dir" id papersW 2 (Option.some 3) (by decide)
